import Mathlib

/-!
Shallow embedding of the metadata-editing core of EPUB-BookPrep
(`src/epub.js`) in Lean 4, together with theorems settling the frozen
claims about it.  JavaScript strings are modelled as Lean `String`
(char-level; the inputs of interest are plain text), absent/non-string
values as `Option`, and the mutable OPF document tree as an explicit
record that the writer threads functionally.  Host facilities that the
code calls out to (the `Date` parser, the zip store, the XML
serializer) are modelled as parameters or omitted, as §6 of the spec
declares them external collaborators.
-/

namespace BookPrep

/-- Characters treated as whitespace by JavaScript `trim`, the `\s`
regex class and `split(/[-_]/)`-adjacent code.  The ASCII cases plus
NBSP and BOM cover every input this development evaluates. -/
def isJsSpace (c : Char) : Bool :=
  c == ' ' || c == '\t' || c == '\n' || c == '\x0d' || c == '\x0b' ||
  c == '\x0c' || c == ' ' || c == '﻿'

/-- Drop leading JS-whitespace. -/
def trimLeftL (l : List Char) : List Char := l.dropWhile isJsSpace

/-- Drop trailing JS-whitespace. -/
def trimRightL (l : List Char) : List Char :=
  ((l.reverse).dropWhile isJsSpace).reverse

/-- Model of JavaScript `String.prototype.trim`. -/
def jsTrimL (l : List Char) : List Char := trimRightL (trimLeftL l)

/-- Model of JavaScript `String.prototype.trim` on `String`. -/
def jsTrim (s : String) : String := String.mk (jsTrimL s.data)

/-- JS truthiness of an optional string: `undefined`/`null`/`""` are falsy. -/
def jsTruthy : Option String → Bool
  | none => false
  | some s => !(s == "")

/-- JS `a || b` for an optional string attribute with a string default. -/
def jsOrD (o : Option String) (d : String) : String :=
  match o with
  | none => d
  | some s => if s == "" then d else s

/-- Does `pat` occur as a prefix of `l`?  (Helper for literal-pattern
`String.replace` and `includes`.) -/
def startsWithL : List Char → List Char → Bool
  | [], _ => true
  | _ :: _, [] => false
  | p :: ps, c :: cs => p == c && startsWithL ps cs

/-- JS `String.prototype.includes` on char lists: does `pat` occur as a
contiguous substring? -/
def containsSubL (pat : List Char) : List Char → Bool
  | [] => startsWithL pat []
  | c :: cs => startsWithL pat (c :: cs) || containsSubL pat cs

/-- JS `String.prototype.includes`. -/
def jsIncludes (s pat : String) : Bool := containsSubL pat.data s.data

/-- One pass of JS `str.replace(/lit/g, rep)` for a literal pattern:
scan left to right, replace non-overlapping occurrences, never rescan
the replacement.  Structural recursion on a fuel that starts at the
list length (each step consumes at least one character). -/
def replaceAllCore (pat rep : List Char) : Nat → List Char → List Char
  | _, [] => []
  | 0, l => l
  | Nat.succ n, c :: cs =>
    if !(pat == []) && startsWithL pat (c :: cs) then
      rep ++ replaceAllCore pat rep n (List.drop (pat.length - 1) cs)
    else
      c :: replaceAllCore pat rep n cs

/-- JS `str.replace(/lit/g, rep)` for a literal pattern `pat`. -/
def replaceAllL (pat rep l : List Char) : List Char :=
  replaceAllCore pat rep l.length l

/-- JS `str.replace(/lit/g, rep)` on `String`. -/
def jsReplaceAll (s pat rep : String) : String :=
  String.mk (replaceAllL pat.data rep.data s.data)

/-- Characters removed by the sanitizer regex
`/[\x00-\x08\x0B\x0C\x0E-\x1F\x7F]/g` in `sanitizeMetadataString`
(`src/epub.js` line 32).  Note `\x09` (tab), `\x0A` (newline) and
`\x0D` (carriage return) are all outside the removed ranges. -/
def isRemovedCtrl (c : Char) : Bool :=
  (c.toNat ≤ 0x08) || c.toNat == 0x0B || c.toNat == 0x0C ||
  (0x0E ≤ c.toNat && c.toNat ≤ 0x1F) || c.toNat == 0x7F

/-- `sanitizeMetadataString` from `src/epub.js` lines 27-34: non-string
or falsy input yields `""`; otherwise trim, cap at `maxLength`
characters, then strip the control characters of `isRemovedCtrl`.
A non-string input is modelled as `none`. -/
def sanitizeMetadataString (value : Option String) (maxLength : Nat := 10000) :
    String :=
  match value with
  | none => ""
  | some s =>
    if s == "" then ""
    else String.mk (((jsTrimL s.data).take maxLength).filter
      (fun c => !(isRemovedCtrl c)))

/-- ASCII lower-casing, model of JS `toLowerCase` on the inputs used here. -/
def jsToLower (s : String) : String := String.mk (s.data.map Char.toLower)

/-- ASCII upper-casing, model of JS `toUpperCase` on the inputs used here. -/
def jsToUpper (s : String) : String := String.mk (s.data.map Char.toUpper)

/-- Splitting helper for JS `split(/[-_]/)`: accumulates the current
segment (reversed) and cuts at every `-` or `_`. -/
def splitDashUnderAux (acc : List Char) : List Char → List (List Char)
  | [] => [acc.reverse]
  | c :: cs =>
    if c == '-' || c == '_' then acc.reverse :: splitDashUnderAux [] cs
    else splitDashUnderAux (c :: acc) cs

/-- JS `str.split(/[-_]/)`, keeping empty segments like JS does. -/
def splitDashUnder (s : String) : List String :=
  (splitDashUnderAux [] s.data).map String.mk

/-- `LANGUAGE_CODE_MAP` from `src/epub.js` lines 40-63: ISO 639-2
three-letter codes mapped to their two-letter ISO 639-1 equivalents. -/
def LANGUAGE_CODE_MAP : List (String × String) :=
  [("eng", "en"), ("fra", "fr"), ("fre", "fr"), ("deu", "de"), ("ger", "de"),
   ("spa", "es"), ("ita", "it"), ("por", "pt"), ("rus", "ru"), ("jpn", "ja"),
   ("zho", "zh"), ("chi", "zh"), ("kor", "ko"), ("ara", "ar"), ("hin", "hi"),
   ("ben", "bn"), ("pan", "pa"), ("jav", "jv"), ("vie", "vi"), ("tur", "tr"),
   ("pol", "pl"), ("ukr", "uk"), ("ron", "ro"), ("rum", "ro"), ("nld", "nl"),
   ("dut", "nl"), ("ell", "el"), ("gre", "el"), ("ces", "cs"), ("cze", "cs"),
   ("hun", "hu"), ("swe", "sv"), ("bul", "bg"), ("dan", "da"), ("fin", "fi"),
   ("nor", "no"), ("nob", "nb"), ("nno", "nn"), ("slk", "sk"), ("slo", "sk"),
   ("hrv", "hr"), ("srp", "sr"), ("slv", "sl"), ("est", "et"), ("lav", "lv"),
   ("lit", "lt"), ("cat", "ca"), ("eus", "eu"), ("baq", "eu"), ("glg", "gl"),
   ("cym", "cy"), ("wel", "cy"), ("gle", "ga"), ("isl", "is"), ("ice", "is"),
   ("mlt", "mt"), ("afr", "af"), ("sqi", "sq"), ("alb", "sq"), ("bel", "be"),
   ("bos", "bs"), ("mkd", "mk"), ("mac", "mk"), ("heb", "he"), ("yid", "yi"),
   ("ind", "id"), ("msa", "ms"), ("may", "ms"), ("tha", "th"), ("fil", "tl"),
   ("tgl", "tl"), ("fas", "fa"), ("per", "fa"), ("urd", "ur"), ("guj", "gu"),
   ("mar", "mr"), ("tam", "ta"), ("tel", "te"), ("kan", "kn"), ("mal", "ml"),
   ("mya", "my"), ("bur", "my"), ("khm", "km"), ("lao", "lo"), ("kat", "ka"),
   ("geo", "ka"), ("hye", "hy"), ("arm", "hy"), ("aze", "az"), ("kaz", "kk"),
   ("uzb", "uz"), ("mon", "mn"), ("nep", "ne"), ("sin", "si"), ("amh", "am"),
   ("swa", "sw"), ("hau", "ha"), ("yor", "yo"), ("ibo", "ig"), ("zul", "zu"),
   ("xho", "xh"), ("lat", "la"), ("san", "sa"), ("epo", "eo")]

/-- `VALID_BCP47_CODES` from `src/epub.js` lines 68-85. -/
def VALID_BCP47_CODES : List String :=
  ["aa", "ab", "ae", "af", "ak", "am", "an", "ar", "as", "av", "ay", "az",
   "ba", "be", "bg", "bh", "bi", "bm", "bn", "bo", "br", "bs", "ca", "ce",
   "ch", "co", "cr", "cs", "cu", "cv", "cy", "da", "de", "dv", "dz", "ee",
   "el", "en", "eo", "es", "et", "eu", "fa", "ff", "fi", "fj", "fo", "fr",
   "fy", "ga", "gd", "gl", "gn", "gu", "gv", "ha", "he", "hi", "ho", "hr",
   "ht", "hu", "hy", "hz", "ia", "id", "ie", "ig", "ii", "ik", "io", "is",
   "it", "iu", "ja", "jv", "ka", "kg", "ki", "kj", "kk", "kl", "km", "kn",
   "ko", "kr", "ks", "ku", "kv", "kw", "ky", "la", "lb", "lg", "li", "ln",
   "lo", "lt", "lu", "lv", "mg", "mh", "mi", "mk", "ml", "mn", "mr", "ms",
   "mt", "my", "na", "nb", "nd", "ne", "ng", "nl", "nn", "no", "nr", "nv",
   "ny", "oc", "oj", "om", "or", "os", "pa", "pi", "pl", "ps", "pt", "qu",
   "rm", "rn", "ro", "ru", "rw", "sa", "sc", "sd", "se", "sg", "si", "sk",
   "sl", "sm", "sn", "so", "sq", "sr", "ss", "st", "su", "sv", "sw", "ta",
   "te", "tg", "th", "ti", "tk", "tl", "tn", "to", "tr", "ts", "tt", "tw",
   "ty", "ug", "uk", "ur", "uz", "ve", "vi", "vo", "wa", "wo", "xh", "yi",
   "yo", "za", "zh", "zu"]

/-- Result record of `normalizeLanguageCode`: `{ code, warning?,
converted?, original? }`.  An absent JS property is `none` / `false`. -/
structure LangResult where
  code : String
  warning : Option String
  converted : Bool
  original : Option String
deriving DecidableEq

/-- `normalizeLanguageCode` from `src/epub.js` lines 91-136: lower-case,
split base/region on `-`/`_`, map known 3-letter bases to 2-letter
codes, re-attach an upper-cased region, and report unknown codes via
warnings rather than errors. -/
def normalizeLanguageCode (code : String) : LangResult :=
  if code == "" then ⟨"", none, false, none⟩
  else
    let original := jsTrim code
    let parts := splitDashUnder (jsToLower original)
    let part0 := parts.headD ""
    let region : Option String :=
      match parts.get? 1 with
      | some r => if r == "" then none else some (jsToUpper r)
      | none => none
    let baseLang :=
      if part0.length == 3 then
        match LANGUAGE_CODE_MAP.lookup part0 with
        | some two => two
        | none => part0
      else part0
    let normalized :=
      match region with
      | some r => baseLang ++ "-" ++ r
      | none => baseLang
    if baseLang.length == 2 && !(VALID_BCP47_CODES.contains baseLang) then
      ⟨normalized,
       some ("Unknown language code: \"" ++ original ++
         "\". Please verify this is a valid BCP 47 code."), false, none⟩
    else if part0.length == 3 && (LANGUAGE_CODE_MAP.lookup part0).isNone then
      ⟨normalized,
       some ("Could not convert 3-letter code \"" ++ part0 ++
         "\" to BCP 47 format. Please verify manually."), false, none⟩
    else if !(baseLang == part0) && part0.length == 3 then
      ⟨normalized, none, true, some original⟩
    else
      ⟨normalized, none, false, none⟩

/-- One pass of the JS regex replace `/<[^>]*>/g → ""`: each match runs
from a `<` to the first following `>`; a `<` with no later `>` matches
nothing and the rest of the string is kept.  Fuel-based recursion, fuel
starts at the list length. -/
def removeTagsCore : Nat → List Char → List Char
  | _, [] => []
  | 0, l => l
  | Nat.succ n, c :: cs =>
    if c == '<' && cs.contains '>' then
      removeTagsCore n ((cs.dropWhile (fun x => !(x == '>'))).drop 1)
    else if c == '<' then c :: cs
    else c :: removeTagsCore n cs

/-- JS `str.replace(/<[^>]*>/g, "")`. -/
def removeTagsL (l : List Char) : List Char := removeTagsCore l.length l

/-- JS `str.replace(/\s+/g, " ")`: collapse each whitespace run to a
single space.  The flag records whether we are inside a run. -/
def collapseWsAux : Bool → List Char → List Char
  | _, [] => []
  | inWs, c :: cs =>
    if isJsSpace c then
      if inWs then collapseWsAux true cs else ' ' :: collapseWsAux true cs
    else c :: collapseWsAux false cs

/-- JS `str.replace(/\s+/g, " ")`. -/
def collapseWsL (l : List Char) : List Char := collapseWsAux false l

/-- `stripHTML` from `src/epub.js` lines 377-389: drop tag-like
substrings, decode the fixed entity set (in source order: `&nbsp;`
`&amp;` `&lt;` `&gt;` `&quot;` `&#39;`), collapse whitespace runs and
trim.  Each `replace` pass scans its input left to right without
rescanning replacements, exactly like the chained JS calls. -/
def stripHTML (s : String) : String :=
  if s == "" then ""
  else
    let l0 := removeTagsL s.data
    let l1 := replaceAllL "&nbsp;".data [' '] l0
    let l2 := replaceAllL "&amp;".data ['&'] l1
    let l3 := replaceAllL "&lt;".data ['<'] l2
    let l4 := replaceAllL "&gt;".data ['>'] l3
    let l5 := replaceAllL "&quot;".data ['"'] l4
    let l6 := replaceAllL "&#39;".data ['\x27'] l5
    String.mk (jsTrimL (collapseWsL l6))

/-- The data `normalizeDateFormat` reads off a successfully parsed JS
`Date`: `getFullYear()`, `getMonth()+1`, `getDate()`. -/
structure JsDate where
  year : Int
  month : Nat
  day : Nat
deriving DecidableEq

/-- JS `String(n).padStart(2, "0")` for the month/day fields. -/
def pad2 (n : Nat) : String :=
  if n < 10 then "0" ++ toString n else toString n

/-- The regex `^\d{4}(-\d{2}-\d{2})?$` of `normalizeDateFormat`. -/
def isCanonDateL : List Char → Bool
  | [a, b, c, d] => a.isDigit && b.isDigit && c.isDigit && d.isDigit
  | [a, b, c, d, h1, e, f, h2, g, h] =>
    a.isDigit && b.isDigit && c.isDigit && d.isDigit && h1 == '-' &&
    e.isDigit && f.isDigit && h2 == '-' && g.isDigit && h.isDigit
  | _ => false

/-- `dateStr.match(/\d{4}/)`: the earliest run of four consecutive
digits, if any. -/
def findFourDigitRun : List Char → Option (List Char)
  | [] => none
  | c :: cs =>
    if ((c :: cs).take 4).length == 4 && ((c :: cs).take 4).all Char.isDigit
    then some ((c :: cs).take 4)
    else findFourDigitRun cs

/-- `normalizeDateFormat` from `src/epub.js` lines 348-372.  The JS
`new Date(dateStr)` parser is a host facility; it is taken as the
parameter `dparse` (`none` models an invalid date).  Canonical
`YYYY`/`YYYY-MM-DD` strings pass through, then the parse is attempted,
then the first 4-digit run is extracted, else the input is returned. -/
def normalizeDateFormat (dparse : String → Option JsDate) (dateStr : String) :
    String :=
  if dateStr == "" then ""
  else if isCanonDateL dateStr.data then dateStr
  else
    match dparse dateStr with
    | some d => toString d.year ++ "-" ++ pad2 d.month ++ "-" ++ pad2 d.day
    | none =>
      match findFourDigitRun dateStr.data with
      | some run => String.mk run
      | none => dateStr

/-- First-occurrence deduplication, the model of `[...new Set(xs)]`:
`seen` accumulates the values already emitted. -/
def jsSetDedupAux (seen : List String) : List String → List String
  | [] => []
  | x :: xs =>
    if x ∈ seen then jsSetDedupAux seen xs
    else x :: jsSetDedupAux (x :: seen) xs

/-- The array branch of `normalizeMetadata` (lines 308-312): trim each
entry, drop the ones that become falsy, deduplicate keeping first
occurrences. -/
def cleanStrList (l : List String) : List String :=
  jsSetDedupAux [] ((l.map jsTrim).filter (fun v => !(v == "")))

/-- A Metadata-shaped caller input to `normalizeMetadata`: every §3
string field plus the string-array fields.  An absent JS property is
`none`; `warningsF` models the `_warnings` property the normalizer
itself stores on its output. -/
structure MetaRecord where
  title : Option String
  subtitle : Option String
  author : Option String
  publisher : Option String
  date : Option String
  description : Option String
  rights : Option String
  language : Option String
  series : Option String
  seriesIndex : Option String
  identifier : Option String
  subjects : Option (List String)
  warningsF : Option (List String)
deriving DecidableEq

/-- The warning list the language step of `normalizeMetadata` produces
for one `normalizeLanguageCode` result (lines 332-337): the normalizer
warning, then the conversion note.  When `converted` is set, `original`
is always present; the `getD "undefined"` mirrors how JS would render a
missing property in the template string. -/
def langWarnList (r : LangResult) : List String :=
  (match r.warning with | some w => [w] | none => []) ++
  (if r.converted then
    ["Language code converted: \"" ++ (r.original).getD "undefined" ++
      "\" â†’ \"" ++ r.code ++ "\""]
   else [])

/-- `normalizeMetadata` from `src/epub.js` lines 300-343, over a
`MetaRecord`-shaped input: trim/clean every field, then normalize the
date, strip HTML from the description, normalize the language, and
store the collected warnings (or `none` when there are none) in
`_warnings`. -/
def normalizeMetadata (dparse : String → Option JsDate) (m : MetaRecord) :
    MetaRecord :=
  let t := fun (o : Option String) => o.map jsTrim
  let n0 : MetaRecord :=
    { title := t m.title, subtitle := t m.subtitle, author := t m.author,
      publisher := t m.publisher, date := t m.date,
      description := t m.description, rights := t m.rights,
      language := t m.language, series := t m.series,
      seriesIndex := t m.seriesIndex, identifier := t m.identifier,
      subjects := m.subjects.map cleanStrList,
      warningsF := m.warningsF.map cleanStrList }
  let n1 :=
    if jsTruthy n0.date then
      { n0 with date := some (normalizeDateFormat dparse ((n0.date).getD "")) }
    else n0
  let n2 :=
    if jsTruthy n1.description then
      { n1 with description := some (stripHTML ((n1.description).getD "")) }
    else n1
  let step :=
    if jsTruthy n2.language then
      let r := normalizeLanguageCode ((n2.language).getD "")
      ({ n2 with language := some r.code }, langWarnList r)
    else (n2, [])
  { step.1 with
    warningsF := if step.2 == [] then none else some step.2 }

/-- A `<meta>` element of the metadata block as xml2js presents it:
attribute map entries (`property`, `refines`, `scheme`, `name`,
`content`, `id`) plus the text value `_`. -/
structure MetaElem where
  property : Option String
  refines : Option String
  scheme : Option String
  name : Option String
  content : Option String
  idAttr : Option String
  value : Option String
deriving DecidableEq

/-- A `dc:identifier` element: text value plus the `id` and
`opf:scheme` attributes. -/
structure IdentElem where
  value : String
  idAttr : Option String
  scheme : Option String
deriving DecidableEq

/-- A `dc:title` element. -/
structure TitleElem where
  value : String
  idAttr : Option String
deriving DecidableEq

/-- A `dc:creator` element: text value plus `id` and `opf:role`. -/
structure CreatorElem where
  value : String
  idAttr : Option String
  opfRole : Option String
deriving DecidableEq

/-- A manifest `<item>`: `id`, `href`, `media-type`, `properties`. -/
structure ManifestItem where
  id : Option String
  href : Option String
  mediaType : Option String
  properties : Option String
deriving DecidableEq

/-- The `<package>` element's attributes: `version` and
`unique-identifier`. -/
structure PkgAttrs where
  version : Option String
  uniqueIdentifier : Option String
deriving DecidableEq

/-- The mutable OPF Document that `writeEpub` edits in place: package
attributes (absent when the element carries none, like `pkg.$`),
the metadata block split by element kind, and the manifest (absent
when the OPF has none, like `opf.package.manifest`). -/
structure OPFDoc where
  pkgAttrs : Option PkgAttrs
  titles : List TitleElem
  creators : List CreatorElem
  language : List String
  publisher : List String
  date : List String
  description : List String
  rights : List String
  identifiers : List IdentElem
  subjects : List String
  metaElems : List MetaElem
  manifest : Option (List ManifestItem)
deriving DecidableEq

/-- An entry of `updates.authors`: either a plain string or an object
with `name`, optional `role`, optional `fileAs`. -/
inductive AuthorUpd where
  | str (s : String)
  | obj (name : String) (role : Option String) (fileAs : Option String)
deriving DecidableEq

/-- The caller-supplied update set of `writeEpub`; every field may be
absent (`none`), meaning "leave unchanged". -/
structure Updates where
  title : Option String
  subtitle : Option String
  author : Option String
  authors : Option (List AuthorUpd)
  publisher : Option String
  date : Option String
  description : Option String
  rights : Option String
  language : Option String
  identifier : Option String
  series : Option String
  seriesIndex : Option String
  subjects : Option (List String)
deriving DecidableEq

/-- The regex `/^\d{9}[\dX]$/i`: nine digits then a digit or `X`/`x`. -/
def isIsbn10L (l : List Char) : Bool :=
  l.length == 10 && (l.take 9).all Char.isDigit &&
  (match l.get? 9 with
   | some c => c.isDigit || c == 'X' || c == 'x'
   | none => false)

/-- The regex `/^(978|979)\d{10}$/`: thirteen digits starting 978/979. -/
def isIsbn13L (l : List Char) : Bool :=
  l.length == 13 && l.all Char.isDigit &&
  (startsWithL "978".data l || startsWithL "979".data l)

/-- JS `value.replace(/[-\s]/g, "")`. -/
def stripDashSpace (s : String) : String :=
  String.mk (s.data.filter (fun c => !(c == '-' || isJsSpace c)))

/-- JS `value.replace(/^urn:isbn:/i, "")`. -/
def stripUrnIsbn (s : String) : String :=
  if startsWithL "urn:isbn:".data (s.data.map Char.toLower) then
    String.mk (s.data.drop 9)
  else s

/-- The cleaned identifier value the write path classifies on
(`src/epub.js` line 653): trim, strip a `urn:isbn:` prefix, drop
hyphens and whitespace. -/
def cleanIdentValue (v : String) : String :=
  stripDashSpace (stripUrnIsbn (jsTrim v))

/-- The write-path ISBN slot test (`src/epub.js` lines 654-656): an
explicit `opf:scheme="ISBN"`, or a cleaned value matching the ISBN-10
or ISBN-13 pattern.  (Unlike the read path, the write path does not
consult `identifier-type` refinements.) -/
def writeClassifiesISBN (e : IdentElem) : Bool :=
  e.scheme == some "ISBN" ||
  isIsbn10L (cleanIdentValue e.value).data ||
  isIsbn13L (cleanIdentValue e.value).data

/-- `pkg.$?.version || "3.0"` (`src/epub.js` line 515). -/
def epubVersionOf (d : OPFDoc) : String :=
  jsOrD (d.pkgAttrs.bind (fun a => a.version)) "3.0"

/-- `epubVersion.startsWith("2")` (`src/epub.js` line 516). -/
def isEpub2 (d : OPFDoc) : Bool :=
  startsWithL "2".data (epubVersionOf d).data

/-- The unconditional cleanup of `title-type` refinements
(`src/epub.js` lines 543-545), run on every write before anything
else touches the metadata block. -/
def stageTitleFilter (d : OPFDoc) : OPFDoc :=
  { d with metaElems :=
      d.metaElems.filter (fun m => !(m.property == some "title-type")) }

/-- The combined `"Title: Subtitle"` value (`src/epub.js`
lines 548-557). -/
def combinedTitleOf (upd : Updates) : String :=
  let st := sanitizeMetadataString upd.title
  if jsTruthy upd.subtitle then
    let ss := sanitizeMetadataString upd.subtitle
    if ss == "" then st else st ++ ": " ++ ss
  else st

/-- Title handling (`src/epub.js` lines 547-562): when a title update
is supplied, a single combined `dc:title` replaces all titles. -/
def stageTitle (upd : Updates) (d : OPFDoc) : OPFDoc :=
  if jsTruthy upd.title then
    { d with titles := [⟨combinedTitleOf upd, none⟩] }
  else d

/-- The `set` helper (`src/epub.js` lines 522-527): overwrite only when
the update is truthy and still non-empty after sanitization. -/
def setStr (u : Option String) (old : List String) : List String :=
  if jsTruthy u then
    let s := sanitizeMetadataString u
    if s == "" then old else [s]
  else old

/-- The four scalar `set` calls (`src/epub.js` lines 565-568). -/
def stageScalars (upd : Updates) (d : OPFDoc) : OPFDoc :=
  { d with publisher := setStr upd.publisher d.publisher,
           date := setStr upd.date d.date,
           description := setStr upd.description d.description,
           rights := setStr upd.rights d.rights }

/-- Language writing (`src/epub.js` lines 571-576): normalize the
sanitized update and write the code only when non-empty. -/
def stageLanguage (upd : Updates) (d : OPFDoc) : OPFDoc :=
  if jsTruthy upd.language then
    let r := normalizeLanguageCode (sanitizeMetadataString upd.language)
    if r.code == "" then d else { d with language := [r.code] }
  else d

/-- The creator elements built from an authors array
(`src/epub.js` lines 589-600), with synthetic ids `creator-<idx>`. -/
def buildCreators (idx : Nat) : List AuthorUpd → List CreatorElem
  | [] => []
  | a :: rest =>
    { value := sanitizeMetadataString
        (some (match a with | .str s => s | .obj n _ _ => n)),
      idAttr := some ("creator-" ++ toString idx),
      opfRole := match a with
        | .str _ => none
        | .obj _ r _ => if jsTruthy r then r else none } ::
    buildCreators (idx + 1) rest

/-- The `file-as` / `role` refinements pushed for an authors array
(`src/epub.js` lines 604-620), EPUB 3 only. -/
def buildAuthorRefines (idx : Nat) : List AuthorUpd → List MetaElem
  | [] => []
  | a :: rest =>
    (match a with
     | .str _ => []
     | .obj _ r f =>
       (if jsTruthy f then
          [{ property := some "file-as",
             refines := some ("#creator-" ++ toString idx),
             scheme := none, name := none, content := none, idAttr := none,
             value := some (sanitizeMetadataString f) }]
        else []) ++
       (if jsTruthy r && !(r == some "aut") then
          [{ property := some "role",
             refines := some ("#creator-" ++ toString idx),
             scheme := some "marc:relators", name := none, content := none,
             idAttr := none, value := r }]
        else [])) ++
    buildAuthorRefines (idx + 1) rest

/-- `m.$?.refines?.startsWith("#creator")`. -/
def refinesStartsCreator (m : MetaElem) : Bool :=
  match m.refines with
  | some r => startsWithL "#creator".data r.data
  | none => false

/-- The legacy single-author branch (`src/epub.js` lines 622-629). -/
def stageSingleAuthor (upd : Updates) (d : OPFDoc) : OPFDoc :=
  if jsTruthy upd.author then
    { d with creators :=
        [⟨sanitizeMetadataString upd.author, some "creator-0", none⟩] }
  else d

/-- Author handling (`src/epub.js` lines 580-629): a non-empty authors
array replaces all creators (clearing and re-adding `file-as`/`role`
refinements only when the document is not EPUB 2); otherwise a single
author string writes one plain creator. -/
def stageAuthors (isE2 : Bool) (upd : Updates) (d : OPFDoc) : OPFDoc :=
  match upd.authors with
  | some l =>
    if l == [] then stageSingleAuthor upd d
    else
      let d1 := if isE2 then d else
        { d with metaElems := d.metaElems.filter (fun m =>
            !(m.property == some "file-as" && refinesStartsCreator m) &&
            !(m.property == some "role" && refinesStartsCreator m)) }
      let d2 := { d1 with creators := buildCreators 0 l }
      if isE2 then d2
      else { d2 with metaElems := d2.metaElems ++ buildAuthorRefines 0 l }
  | none => stageSingleAuthor upd d

/-- The in-place ISBN rewrite (`src/epub.js` lines 660-665): new value,
same id (defaulting to `pub-id`), and an `opf:scheme="ISBN"` attribute
exactly when the entry had a truthy scheme attribute. -/
def rewriteIdent (sanitizedId : String) (e : IdentElem) : IdentElem :=
  { value := sanitizedId,
    idAttr := some (jsOrD e.idAttr "pub-id"),
    scheme := if jsTruthy e.scheme then some "ISBN" else none }

/-- The appended identifier entry for a fresh ISBN (`src/epub.js`
lines 673-677). -/
def newIsbnElem (sanitizedId : String) : IdentElem :=
  ⟨sanitizedId, some "pub-id", none⟩

/-- The ONIX `identifier-type` refinement pushed for a fresh ISBN
(`src/epub.js` lines 685-693). -/
def onixRefineElem (isThirteen : Bool) : MetaElem :=
  { property := some "identifier-type", refines := some "#pub-id",
    scheme := some "onix:codelist5", name := none, content := none,
    idAttr := none, value := some (if isThirteen then "15" else "02") }

/-- The identifier-list transformation of the write path
(`src/epub.js` lines 632-701): map the in-place rewrite over every
entry, and append a fresh entry when the update validates as ISBN and
no existing entry classified. -/
def identUpdate (upd : Updates) (ids : List IdentElem) : List IdentElem :=
  if jsTruthy upd.identifier then
    let sid := sanitizeMetadataString upd.identifier
    let clean := stripDashSpace sid
    let valid := isIsbn10L clean.data || isIsbn13L clean.data
    let mapped := ids.map (fun e =>
      if writeClassifiesISBN e && valid then rewriteIdent sid e else e)
    if valid && !(ids.any writeClassifiesISBN) then
      mapped ++ [newIsbnElem sid]
    else mapped
  else ids

/-- Identifier handling (`src/epub.js` lines 632-702), including the
ONIX refinement (EPUB 3 only) and the `unique-identifier` assignment
(only when the package had none and carries an attribute map). -/
def stageIdentifier (isE2 : Bool) (upd : Updates) (d : OPFDoc) : OPFDoc :=
  if jsTruthy upd.identifier then
    let sid := sanitizeMetadataString upd.identifier
    let clean := stripDashSpace sid
    let is13 := isIsbn13L clean.data
    let valid := isIsbn10L clean.data || is13
    let uniqueRef := d.pkgAttrs.bind (fun a => a.uniqueIdentifier)
    let appendNew := valid && !(d.identifiers.any writeClassifiesISBN)
    let d1 := { d with identifiers := identUpdate upd d.identifiers }
    let d2 :=
      if appendNew && !isE2 then
        { d1 with metaElems :=
            (d1.metaElems.filter (fun m =>
              !(m.refines == some "#pub-id" &&
                m.property == some "identifier-type"))) ++
            [onixRefineElem is13] }
      else d1
    if appendNew && !(jsTruthy uniqueRef) && d.pkgAttrs.isSome then
      { d2 with pkgAttrs :=
          (Option.map (fun a => { a with uniqueIdentifier := some "pub-id" })
            d2.pkgAttrs) }
    else d2
  else d

/-- Subject handling (`src/epub.js` lines 709-713): the guard
`updates.subjects?.length` skips absent and empty lists; a non-empty
list replaces the subjects wholesale, sanitized. -/
def stageSubjects (upd : Updates) (d : OPFDoc) : OPFDoc :=
  match upd.subjects with
  | some l =>
    if l == [] then d
    else { d with subjects := l.map (fun s => sanitizeMetadataString (some s)) }
  | none => d

/-- The EPUB 3 series cleanup test (`src/epub.js` lines 722-727). -/
def isSeriesFiltered (m : MetaElem) : Bool :=
  m.property == some "belongs-to-collection" ||
  m.property == some "group-position" ||
  m.property == some "collection-type" ||
  (match m.refines with
   | some r => startsWithL "#collection".data r.data
   | none => false)

/-- The fresh EPUB 3 collection triple (`src/epub.js` lines 730-748). -/
def seriesElems (upd : Updates) : List MetaElem :=
  if jsTruthy upd.series then
    [{ property := some "belongs-to-collection", refines := none,
       scheme := none, name := none, content := none,
       idAttr := some "collection",
       value := some (sanitizeMetadataString upd.series) },
     { property := some "collection-type", refines := some "#collection",
       scheme := none, name := none, content := none, idAttr := none,
       value := some "series" }] ++
    (if jsTruthy upd.seriesIndex then
      [{ property := some "group-position", refines := some "#collection",
         scheme := none, name := none, content := none, idAttr := none,
         value := upd.seriesIndex }]
     else [])
  else []

/-- The fresh `dcterms:modified` element (`src/epub.js` lines 755-759);
`now` is the host clock value. -/
def dctermsElem (now : String) : MetaElem :=
  { property := some "dcterms:modified", refines := none, scheme := none,
    name := none, content := none, idAttr := none, value := some now }

/-- The calibre-style EPUB 2 series pair (`src/epub.js`
lines 769-778). -/
def calibreElems (upd : Updates) : List MetaElem :=
  [{ property := none, refines := none, scheme := none,
     name := some "calibre:series",
     content := some (sanitizeMetadataString upd.series), idAttr := none,
     value := none }] ++
  (if jsTruthy upd.seriesIndex then
    [{ property := none, refines := none, scheme := none,
       name := some "calibre:series_index", content := upd.seriesIndex,
       idAttr := none, value := none }]
   else [])

/-- Series and modified-timestamp handling (`src/epub.js`
lines 718-780): EPUB 3 rebuilds the collection triple and always
refreshes `dcterms:modified`; EPUB 2 uses flat calibre meta pairs and
never receives `dcterms:modified`. -/
def stageSeries (isE2 : Bool) (now : String) (upd : Updates) (d : OPFDoc) :
    OPFDoc :=
  if isE2 then
    if jsTruthy upd.series then
      { d with metaElems :=
          (d.metaElems.filter (fun m =>
            !(m.name == some "calibre:series") &&
            !(m.name == some "calibre:series_index"))) ++
          calibreElems upd }
    else d
  else
    let m1 := (d.metaElems.filter (fun m => !(isSeriesFiltered m))) ++
      seriesElems upd
    let m2 := (m1.filter (fun m =>
      !(m.property == some "dcterms:modified"))) ++ [dctermsElem now]
    { d with metaElems := m2 }

/-- `item.$.properties.includes("cover-image")` with the null
safeguards. -/
def hasCoverImageProp (i : ManifestItem) : Bool :=
  match i.properties with
  | some p => containsSubL "cover-image".data p.data
  | none => false

/-- Rule 1 of the cover fallback chain: the first `meta name="cover"`
element, when its `content` is truthy. -/
def findCoverMetaContent (metas : List MetaElem) : Option String :=
  match metas.find? (fun m => m.name == some "cover") with
  | some m =>
    match m.content with
    | some c => if c == "" then none else some c
    | none => none
  | none => none

/-- Rule 3 of the cover fallback chain: id contains "cover"
(case-insensitive) and media type starts with `image/`. -/
def isCoverishItem (i : ManifestItem) : Bool :=
  (match i.id with
   | some id0 => containsSubL "cover".data (jsToLower id0).data
   | none => false) &&
  (match i.mediaType with
   | some mt => startsWithL "image/".data mt.data
   | none => false)

/-- The cover-id selection of the read path `getCoverImage`
(`src/epub.js` lines 406-442): `meta name="cover"` pointer first, then
the `cover-image` manifest property, then a cover-ish id; each later
rule also requires a truthy item id. -/
def findCoverIdRead (man : List ManifestItem) (metas : List MetaElem) :
    Option String :=
  match findCoverMetaContent metas with
  | some c => some c
  | none =>
    let byProp : Option String :=
      match man.find? hasCoverImageProp with
      | some i =>
        match i.id with
        | some id0 => if id0 == "" then none else some id0
        | none => none
      | none => none
    match byProp with
    | some id0 => some id0
    | none =>
      match man.find? isCoverishItem with
      | some i =>
        match i.id with
        | some id0 => if id0 == "" then none else some id0
        | none => none
      | none => none

/-- The manifest entry the read path resolves its cover id to
(`src/epub.js` line 445). -/
def findCoverItemRead (man : List ManifestItem) (metas : List MetaElem) :
    Option ManifestItem :=
  match findCoverIdRead man metas with
  | some cid => man.find? (fun i => i.id == some cid)
  | none => none

/-- The cover-slot selection of the write path (`src/epub.js`
lines 801-827): for non-EPUB-2 documents the `cover-image` manifest
property is tried FIRST, then the `meta name="cover"` pointer, then a
cover-ish id; for EPUB 2 the property rule is skipped. -/
def findCoverItemWrite (isE2 : Bool) (man : List ManifestItem)
    (metas : List MetaElem) : Option ManifestItem :=
  let c1 : Option ManifestItem :=
    if isE2 then none else man.find? hasCoverImageProp
  match c1 with
  | some i => some i
  | none =>
    let c2 : Option ManifestItem :=
      match findCoverMetaContent metas with
      | some cid => man.find? (fun i => i.id == some cid)
      | none => none
    match c2 with
    | some i => some i
    | none => man.find? isCoverishItem

/-- `coverBuffer[0] === 0xFF && coverBuffer[1] === 0xD8`. -/
def bufIsJpeg : List Nat → Bool
  | a :: b :: _ => a == 0xFF && b == 0xD8
  | _ => false

/-- Replace the first occurrence of `old` in the manifest, modelling
the in-place mutation of the found item object. -/
def replaceFirstItem : List ManifestItem → ManifestItem → ManifestItem →
    List ManifestItem
  | [], _, _ => []
  | i :: rest, old, new =>
    if i == old then new :: rest else i :: replaceFirstItem rest old new

/-- The version-agnostic `meta name="cover"` pointer added for a
synthesized cover (`src/epub.js` lines 868-870). -/
def coverMetaPointer : MetaElem :=
  { property := none, refines := none, scheme := none,
    name := some "cover", content := some "cover-image", idAttr := none,
    value := none }

/-- The synthesized manifest entry for a new cover (`src/epub.js`
lines 852-864); the `cover-image` property is EPUB 3 only. -/
def newCoverItem (isE2 : Bool) : ManifestItem :=
  { id := some "cover-image", href := some "images/cover.jpg",
    mediaType := some "image/jpeg",
    properties := if isE2 then none else some "cover-image" }

/-- Cover replacement (`src/epub.js` lines 783-875).  The archive
writes go to the external resource store and are not part of the
Document; what the Document sees is: the manifest gets initialized,
a found slot's media type flips to `image/jpeg` for JPEG bytes
(skipped when the slot has no `href`, where the JS `path.join` throws
into the surrounding catch), and a missing slot is synthesized
together with the `meta name="cover"` pointer. -/
def stageCover (isE2 : Bool) (cover : Option (List Nat)) (d : OPFDoc) :
    OPFDoc :=
  match cover with
  | none => d
  | some buf =>
    let man := (d.manifest).getD []
    let d0 := { d with manifest := some man }
    match findCoverItemWrite isE2 man d.metaElems with
    | some item =>
      match item.href with
      | none => d0
      | some _ =>
        if bufIsJpeg buf then
          { d0 with manifest := some (replaceFirstItem man item
              { item with mediaType := some "image/jpeg" }) }
        else d0
    | none =>
      { d0 with manifest := some (man ++ [newCoverItem isE2]),
                metaElems := d0.metaElems ++ [coverMetaPointer] }

/-- `writeEpub` from `src/epub.js` lines 509-881, as the composition of
its stages in source order; `now` is the host clock reading used for
`dcterms:modified`.  The zip/serializer interactions at the end are
external collaborators and carry no Document mutation. -/
def writeEpub (upd : Updates) (cover : Option (List Nat)) (now : String)
    (d : OPFDoc) : OPFDoc :=
  let isE2 := isEpub2 d
  stageCover isE2 cover
    (stageSeries isE2 now upd
      (stageSubjects upd
        (stageIdentifier isE2 upd
          (stageAuthors isE2 upd
            (stageLanguage upd
              (stageScalars upd
                (stageTitle upd (stageTitleFilter d))))))))

/-! ### Frame lemmas: which stage touches which Document component -/

theorem stageTitleFilter_identifiers (d : OPFDoc) :
    (stageTitleFilter d).identifiers = d.identifiers := rfl

theorem stageTitle_identifiers (upd : Updates) (d : OPFDoc) :
    (stageTitle upd d).identifiers = d.identifiers := by
  unfold stageTitle; split <;> rfl

theorem stageScalars_identifiers (upd : Updates) (d : OPFDoc) :
    (stageScalars upd d).identifiers = d.identifiers := rfl

theorem stageLanguage_identifiers (upd : Updates) (d : OPFDoc) :
    (stageLanguage upd d).identifiers = d.identifiers := by
  unfold stageLanguage; split <;> (try rfl)
  dsimp only; split <;> rfl

theorem stageSingleAuthor_identifiers (upd : Updates) (d : OPFDoc) :
    (stageSingleAuthor upd d).identifiers = d.identifiers := by
  unfold stageSingleAuthor; split <;> rfl

theorem stageAuthors_identifiers (isE2 : Bool) (upd : Updates) (d : OPFDoc) :
    (stageAuthors isE2 upd d).identifiers = d.identifiers := by
  unfold stageAuthors
  cases upd.authors with
  | none => exact stageSingleAuthor_identifiers upd d
  | some l =>
    dsimp only
    split
    · exact stageSingleAuthor_identifiers upd d
    · by_cases hE : isE2 <;> simp [hE]

theorem stageSubjects_identifiers (upd : Updates) (d : OPFDoc) :
    (stageSubjects upd d).identifiers = d.identifiers := by
  unfold stageSubjects
  cases upd.subjects with
  | none => rfl
  | some l => dsimp only; split <;> rfl

theorem stageSeries_identifiers (isE2 : Bool) (now : String) (upd : Updates)
    (d : OPFDoc) : (stageSeries isE2 now upd d).identifiers = d.identifiers := by
  unfold stageSeries; split <;> (try split) <;> rfl

theorem stageCover_identifiers (isE2 : Bool) (cover : Option (List Nat))
    (d : OPFDoc) : (stageCover isE2 cover d).identifiers = d.identifiers := by
  unfold stageCover
  cases cover with
  | none => rfl
  | some buf =>
    dsimp only
    cases findCoverItemWrite isE2 (d.manifest.getD []) d.metaElems with
    | none => rfl
    | some item =>
      obtain ⟨iid, ihref, imt, iprops⟩ := item
      cases ihref with
      | none => rfl
      | some h => dsimp only; split <;> rfl

theorem stageIdentifier_identifiers (isE2 : Bool) (upd : Updates) (d : OPFDoc) :
    (stageIdentifier isE2 upd d).identifiers = identUpdate upd d.identifiers := by
  unfold stageIdentifier
  by_cases h : jsTruthy upd.identifier
  · simp only [h, if_true]
    split <;> split <;> rfl
  · simp only [h, if_false, identUpdate]
    simp [h]

/-- The identifiers of the written Document are exactly `identUpdate`
applied to the original identifiers: no other stage touches them. -/
theorem writeEpub_identifiers (upd : Updates) (cover : Option (List Nat))
    (now : String) (d : OPFDoc) :
    (writeEpub upd cover now d).identifiers = identUpdate upd d.identifiers := by
  unfold writeEpub
  rw [stageCover_identifiers, stageSeries_identifiers, stageSubjects_identifiers,
    stageIdentifier_identifiers, stageAuthors_identifiers,
    stageLanguage_identifiers, stageScalars_identifiers,
    stageTitle_identifiers, stageTitleFilter_identifiers]

theorem stageTitleFilter_pkgAttrs (d : OPFDoc) :
    (stageTitleFilter d).pkgAttrs = d.pkgAttrs := rfl

theorem stageTitle_pkgAttrs (upd : Updates) (d : OPFDoc) :
    (stageTitle upd d).pkgAttrs = d.pkgAttrs := by
  unfold stageTitle; split <;> rfl

theorem stageScalars_pkgAttrs (upd : Updates) (d : OPFDoc) :
    (stageScalars upd d).pkgAttrs = d.pkgAttrs := rfl

theorem stageLanguage_pkgAttrs (upd : Updates) (d : OPFDoc) :
    (stageLanguage upd d).pkgAttrs = d.pkgAttrs := by
  unfold stageLanguage; split <;> (try rfl)
  dsimp only; split <;> rfl

theorem stageSingleAuthor_pkgAttrs (upd : Updates) (d : OPFDoc) :
    (stageSingleAuthor upd d).pkgAttrs = d.pkgAttrs := by
  unfold stageSingleAuthor; split <;> rfl

theorem stageAuthors_pkgAttrs (isE2 : Bool) (upd : Updates) (d : OPFDoc) :
    (stageAuthors isE2 upd d).pkgAttrs = d.pkgAttrs := by
  unfold stageAuthors
  cases upd.authors with
  | none => exact stageSingleAuthor_pkgAttrs upd d
  | some l =>
    dsimp only
    split
    · exact stageSingleAuthor_pkgAttrs upd d
    · by_cases hE : isE2 <;> simp [hE]

theorem stageSubjects_pkgAttrs (upd : Updates) (d : OPFDoc) :
    (stageSubjects upd d).pkgAttrs = d.pkgAttrs := by
  unfold stageSubjects
  cases upd.subjects with
  | none => rfl
  | some l => dsimp only; split <;> rfl

theorem stageSeries_pkgAttrs (isE2 : Bool) (now : String) (upd : Updates)
    (d : OPFDoc) : (stageSeries isE2 now upd d).pkgAttrs = d.pkgAttrs := by
  unfold stageSeries; split <;> (try split) <;> rfl

theorem stageCover_pkgAttrs (isE2 : Bool) (cover : Option (List Nat))
    (d : OPFDoc) : (stageCover isE2 cover d).pkgAttrs = d.pkgAttrs := by
  unfold stageCover
  cases cover with
  | none => rfl
  | some buf =>
    dsimp only
    cases findCoverItemWrite isE2 (d.manifest.getD []) d.metaElems with
    | none => rfl
    | some item =>
      obtain ⟨iid, ihref, imt, iprops⟩ := item
      cases ihref with
      | none => rfl
      | some h => dsimp only; split <;> rfl

/-- The `unique-identifier` transformation of the write path, isolated:
set to `pub-id` exactly when a fresh ISBN entry is appended, the
existing reference is falsy, and the package carries an attribute
map. -/
def pkgUpdate (upd : Updates) (ids : List IdentElem)
    (attrs : Option PkgAttrs) : Option PkgAttrs :=
  if jsTruthy upd.identifier then
    let clean := stripDashSpace (sanitizeMetadataString upd.identifier)
    let valid := isIsbn10L clean.data || isIsbn13L clean.data
    let appendNew := valid && !(ids.any writeClassifiesISBN)
    if appendNew && !(jsTruthy (attrs.bind (fun a => a.uniqueIdentifier))) &&
        attrs.isSome then
      Option.map (fun a => { a with uniqueIdentifier := some "pub-id" }) attrs
    else attrs
  else attrs

theorem stageIdentifier_pkgAttrs (isE2 : Bool) (upd : Updates) (d : OPFDoc) :
    (stageIdentifier isE2 upd d).pkgAttrs =
      pkgUpdate upd d.identifiers d.pkgAttrs := by
  unfold stageIdentifier pkgUpdate
  by_cases h : jsTruthy upd.identifier
  · simp only [h, if_true]
    split <;> split <;> rfl
  · simp [h]

/-- The package attributes of the written Document are exactly
`pkgUpdate` of the original identifiers and attributes. -/
theorem writeEpub_pkgAttrs (upd : Updates) (cover : Option (List Nat))
    (now : String) (d : OPFDoc) :
    (writeEpub upd cover now d).pkgAttrs =
      pkgUpdate upd d.identifiers d.pkgAttrs := by
  unfold writeEpub
  rw [stageCover_pkgAttrs, stageSeries_pkgAttrs, stageSubjects_pkgAttrs,
    stageIdentifier_pkgAttrs, stageAuthors_pkgAttrs, stageLanguage_pkgAttrs,
    stageScalars_pkgAttrs, stageTitle_pkgAttrs, stageTitleFilter_pkgAttrs,
    stageAuthors_identifiers, stageLanguage_identifiers,
    stageScalars_identifiers, stageTitle_identifiers,
    stageTitleFilter_identifiers]

theorem stageTitleFilter_subjects (d : OPFDoc) :
    (stageTitleFilter d).subjects = d.subjects := rfl

theorem stageTitle_subjects (upd : Updates) (d : OPFDoc) :
    (stageTitle upd d).subjects = d.subjects := by
  unfold stageTitle; split <;> rfl

theorem stageScalars_subjects (upd : Updates) (d : OPFDoc) :
    (stageScalars upd d).subjects = d.subjects := rfl

theorem stageLanguage_subjects (upd : Updates) (d : OPFDoc) :
    (stageLanguage upd d).subjects = d.subjects := by
  unfold stageLanguage; split <;> (try rfl)
  dsimp only; split <;> rfl

theorem stageSingleAuthor_subjects (upd : Updates) (d : OPFDoc) :
    (stageSingleAuthor upd d).subjects = d.subjects := by
  unfold stageSingleAuthor; split <;> rfl

theorem stageAuthors_subjects (isE2 : Bool) (upd : Updates) (d : OPFDoc) :
    (stageAuthors isE2 upd d).subjects = d.subjects := by
  unfold stageAuthors
  cases upd.authors with
  | none => exact stageSingleAuthor_subjects upd d
  | some l =>
    dsimp only
    split
    · exact stageSingleAuthor_subjects upd d
    · by_cases hE : isE2 <;> simp [hE]

theorem stageIdentifier_subjects (isE2 : Bool) (upd : Updates) (d : OPFDoc) :
    (stageIdentifier isE2 upd d).subjects = d.subjects := by
  unfold stageIdentifier
  by_cases h : jsTruthy upd.identifier
  · simp only [h, if_true]
    split <;> split <;> rfl
  · simp [h]

theorem stageSeries_subjects (isE2 : Bool) (now : String) (upd : Updates)
    (d : OPFDoc) : (stageSeries isE2 now upd d).subjects = d.subjects := by
  unfold stageSeries; split <;> (try split) <;> rfl

theorem stageCover_subjects (isE2 : Bool) (cover : Option (List Nat))
    (d : OPFDoc) : (stageCover isE2 cover d).subjects = d.subjects := by
  unfold stageCover
  cases cover with
  | none => rfl
  | some buf =>
    dsimp only
    cases findCoverItemWrite isE2 (d.manifest.getD []) d.metaElems with
    | none => rfl
    | some item =>
      obtain ⟨iid, ihref, imt, iprops⟩ := item
      cases ihref with
      | none => rfl
      | some h => dsimp only; split <;> rfl

/-- The subject-list transformation of the write path, isolated. -/
def subjUpdate (upd : Updates) (subj : List String) : List String :=
  match upd.subjects with
  | some l =>
    if l == [] then subj
    else l.map (fun s => sanitizeMetadataString (some s))
  | none => subj

theorem stageSubjects_subjects (upd : Updates) (d : OPFDoc) :
    (stageSubjects upd d).subjects = subjUpdate upd d.subjects := by
  unfold stageSubjects subjUpdate
  cases upd.subjects with
  | none => rfl
  | some l => dsimp only; split <;> rfl

/-- The subjects of the written Document are exactly `subjUpdate` of
the original subjects: no other stage touches them. -/
theorem writeEpub_subjects (upd : Updates) (cover : Option (List Nat))
    (now : String) (d : OPFDoc) :
    (writeEpub upd cover now d).subjects = subjUpdate upd d.subjects := by
  unfold writeEpub
  rw [stageCover_subjects, stageSeries_subjects, stageSubjects_subjects,
    stageIdentifier_subjects, stageAuthors_subjects, stageLanguage_subjects,
    stageScalars_subjects, stageTitle_subjects, stageTitleFilter_subjects]

theorem stageTitle_metaElems (upd : Updates) (d : OPFDoc) :
    (stageTitle upd d).metaElems = d.metaElems := by
  unfold stageTitle; split <;> rfl

theorem stageScalars_metaElems (upd : Updates) (d : OPFDoc) :
    (stageScalars upd d).metaElems = d.metaElems := rfl

theorem stageLanguage_metaElems (upd : Updates) (d : OPFDoc) :
    (stageLanguage upd d).metaElems = d.metaElems := by
  unfold stageLanguage; split <;> (try rfl)
  dsimp only; split <;> rfl

theorem stageSingleAuthor_metaElems (upd : Updates) (d : OPFDoc) :
    (stageSingleAuthor upd d).metaElems = d.metaElems := by
  unfold stageSingleAuthor; split <;> rfl

theorem stageSubjects_metaElems (upd : Updates) (d : OPFDoc) :
    (stageSubjects upd d).metaElems = d.metaElems := by
  unfold stageSubjects
  cases upd.subjects with
  | none => rfl
  | some l => dsimp only; split <;> rfl

/-- On an EPUB 2 document the authors stage leaves the metadata block
alone: both the refinement cleanup and the refinement pushes are
guarded by the version check. -/
theorem stageAuthors_metaElems_epub2 (upd : Updates) (d : OPFDoc) :
    (stageAuthors true upd d).metaElems = d.metaElems := by
  unfold stageAuthors
  cases upd.authors with
  | none => exact stageSingleAuthor_metaElems upd d
  | some l =>
    dsimp only
    split
    · exact stageSingleAuthor_metaElems upd d
    · simp

/-- On an EPUB 2 document the identifier stage leaves the metadata
block alone: the ONIX refinement is guarded by the version check. -/
theorem stageIdentifier_metaElems_epub2 (upd : Updates) (d : OPFDoc) :
    (stageIdentifier true upd d).metaElems = d.metaElems := by
  unfold stageIdentifier
  by_cases h : jsTruthy upd.identifier
  · simp only [h, if_true]
    split <;> simp
  · simp [h]

/-- Every refinement pushed by the authors stage carries `file-as` or
`role` as its property. -/
theorem mem_buildAuthorRefines_property (e : MetaElem) :
    ∀ (idx : Nat) (l : List AuthorUpd), e ∈ buildAuthorRefines idx l →
      e.property = some "file-as" ∨ e.property = some "role" := by
  intro idx l
  induction l generalizing idx with
  | nil => intro h; simp [buildAuthorRefines] at h
  | cons a t ih =>
    intro h
    simp only [buildAuthorRefines, List.mem_append] at h
    rcases h with h | h
    · cases a with
      | str s => simp at h
      | obj n r f =>
        dsimp only at h
        rw [List.mem_append] at h
        rcases h with h | h <;> split at h <;>
          simp_all
    · exact ih (idx + 1) h

/-- Every element pushed by the EPUB 3 series stage carries a
collection property. -/
theorem mem_seriesElems_property (upd : Updates) (e : MetaElem) :
    e ∈ seriesElems upd →
      e.property = some "belongs-to-collection" ∨
      e.property = some "collection-type" ∨
      e.property = some "group-position" := by
  intro h
  unfold seriesElems at h
  split at h
  · simp only [List.cons_append, List.nil_append, List.mem_cons] at h
    rcases h with h | h | h
    · left; rw [h]
    · right; left; rw [h]
    · split at h <;> simp_all
  · simp at h

/-- Every element pushed by the EPUB 2 calibre series stage is a flat
name/content pair with no `property` attribute. -/
theorem mem_calibreElems_property (upd : Updates) (e : MetaElem) :
    e ∈ calibreElems upd → e.property = none := by
  intro h
  unfold calibreElems at h
  simp only [List.cons_append, List.nil_append, List.mem_cons] at h
  rcases h with h | h
  · rw [h]
  · split at h <;> simp_all

/-- Everything in a replaced manifest is an original item or the
replacement (which then replaced an original item). -/
theorem mem_replaceFirstItem (x : ManifestItem) :
    ∀ (man : List ManifestItem) (old new : ManifestItem),
      x ∈ replaceFirstItem man old new → x ∈ man ∨ (x = new ∧ old ∈ man) := by
  intro man
  induction man with
  | nil => intro old new h; simp [replaceFirstItem] at h
  | cons i rest ih =>
    intro old new h
    unfold replaceFirstItem at h
    split at h
    · rcases List.mem_cons.mp h with h | h
      · right; exact ⟨h, by simp_all⟩
      · left; exact List.mem_cons_of_mem _ h
    · rcases List.mem_cons.mp h with h | h
      · left; simp [h]
      · rcases ih old new h with h | ⟨h1, h2⟩
        · left; exact List.mem_cons_of_mem _ h
        · right; exact ⟨h1, List.mem_cons_of_mem _ h2⟩

/-- The cover stage never removes metadata elements. -/
theorem stageCover_metaElems_mem (isE2 : Bool) (cover : Option (List Nat))
    (d : OPFDoc) (e : MetaElem) (h : e ∈ d.metaElems) :
    e ∈ (stageCover isE2 cover d).metaElems := by
  unfold stageCover
  cases cover with
  | none => exact h
  | some buf =>
    dsimp only
    cases findCoverItemWrite isE2 (d.manifest.getD []) d.metaElems with
    | none => exact List.mem_append.mpr (Or.inl h)
    | some item =>
      obtain ⟨iid, ihref, imt, iprops⟩ := item
      cases ihref with
      | none => exact h
      | some hr => dsimp only; split <;> exact h

/-- Every metadata element of the cover stage's output is an original
one or the synthesized `meta name="cover"` pointer. -/
theorem stageCover_metaElems_sub (isE2 : Bool) (cover : Option (List Nat))
    (d : OPFDoc) (e : MetaElem)
    (h : e ∈ (stageCover isE2 cover d).metaElems) :
    e ∈ d.metaElems ∨ e = coverMetaPointer := by
  unfold stageCover at h
  cases cover with
  | none => exact Or.inl h
  | some buf =>
    dsimp only at h
    cases hw : findCoverItemWrite isE2 (d.manifest.getD []) d.metaElems with
    | none =>
      rw [hw] at h
      dsimp only at h
      rcases List.mem_append.mp h with h | h
      · exact Or.inl h
      · right; simpa using h
    | some item =>
      rw [hw] at h
      obtain ⟨iid, ihref, imt, iprops⟩ := item
      cases ihref with
      | none => exact Or.inl h
      | some hr =>
        dsimp only at h; split at h <;> exact Or.inl h

theorem stageTitleFilter_manifest (d : OPFDoc) :
    (stageTitleFilter d).manifest = d.manifest := rfl

theorem stageTitle_manifest (upd : Updates) (d : OPFDoc) :
    (stageTitle upd d).manifest = d.manifest := by
  unfold stageTitle; split <;> rfl

theorem stageScalars_manifest (upd : Updates) (d : OPFDoc) :
    (stageScalars upd d).manifest = d.manifest := rfl

theorem stageLanguage_manifest (upd : Updates) (d : OPFDoc) :
    (stageLanguage upd d).manifest = d.manifest := by
  unfold stageLanguage; split <;> (try rfl)
  dsimp only; split <;> rfl

theorem stageSingleAuthor_manifest (upd : Updates) (d : OPFDoc) :
    (stageSingleAuthor upd d).manifest = d.manifest := by
  unfold stageSingleAuthor; split <;> rfl

theorem stageAuthors_manifest (isE2 : Bool) (upd : Updates) (d : OPFDoc) :
    (stageAuthors isE2 upd d).manifest = d.manifest := by
  unfold stageAuthors
  cases upd.authors with
  | none => exact stageSingleAuthor_manifest upd d
  | some l =>
    dsimp only
    split
    · exact stageSingleAuthor_manifest upd d
    · by_cases hE : isE2 <;> simp [hE]

theorem stageIdentifier_manifest (isE2 : Bool) (upd : Updates) (d : OPFDoc) :
    (stageIdentifier isE2 upd d).manifest = d.manifest := by
  unfold stageIdentifier
  by_cases h : jsTruthy upd.identifier
  · simp only [h, if_true]
    split <;> split <;> rfl
  · simp [h]

theorem stageSubjects_manifest (upd : Updates) (d : OPFDoc) :
    (stageSubjects upd d).manifest = d.manifest := by
  unfold stageSubjects
  cases upd.subjects with
  | none => rfl
  | some l => dsimp only; split <;> rfl

theorem stageSeries_manifest (isE2 : Bool) (now : String) (upd : Updates)
    (d : OPFDoc) : (stageSeries isE2 now upd d).manifest = d.manifest := by
  unfold stageSeries; split <;> (try split) <;> rfl

/-- The five refinement/timestamp properties the version-2 guard is
about. -/
def gprop (m : MetaElem) : Bool :=
  m.property == some "dcterms:modified" || m.property == some "title-type" ||
  m.property == some "identifier-type" || m.property == some "file-as" ||
  m.property == some "role"

theorem gprop_false_of_property_none (m : MetaElem) (h : m.property = none) :
    gprop m = false := by
  simp [gprop, h]

theorem stageTitleFilter_metaElems_sub (d : OPFDoc) (e : MetaElem)
    (h : e ∈ (stageTitleFilter d).metaElems) : e ∈ d.metaElems := by
  unfold stageTitleFilter at h
  exact (List.mem_filter.mp h).1

/-- On an EPUB 2 document the series stage can only add flat calibre
pairs, so every surviving element with one of the guarded properties
was already present. -/
theorem stageSeries_guarded_epub2 (now : String) (upd : Updates) (d : OPFDoc)
    (e : MetaElem) (he : e ∈ (stageSeries true now upd d).metaElems)
    (hg : gprop e = true) : e ∈ d.metaElems := by
  unfold stageSeries at he
  simp only [if_true] at he
  split at he
  · dsimp only at he
    rcases List.mem_append.mp he with h | h
    · exact (List.mem_filter.mp h).1
    · rw [gprop_false_of_property_none e (mem_calibreElems_property upd e h)]
        at hg
      exact absurd hg (by simp)
  · exact he

/-- An element that neither the collection cleanup nor the
`dcterms:modified` refresh matches survives the EPUB 3 series stage. -/
theorem stageSeries_mem_preserved (now : String) (upd : Updates) (d : OPFDoc)
    (e : MetaElem) (hf : isSeriesFiltered e = false)
    (hdc : (e.property == some "dcterms:modified") = false)
    (h : e ∈ d.metaElems) : e ∈ (stageSeries false now upd d).metaElems := by
  unfold stageSeries
  simp only [Bool.false_eq_true, if_false]
  refine List.mem_append.mpr (Or.inl ?_)
  refine List.mem_filter.mpr ⟨List.mem_append.mpr (Or.inl ?_), by simp [hdc]⟩
  exact List.mem_filter.mpr ⟨h, by simp [hf]⟩

/-- A found cover slot is an element of the manifest. -/
theorem findCoverItemWrite_mem (isE2 : Bool) (man : List ManifestItem)
    (metas : List MetaElem) (item : ManifestItem)
    (hw : findCoverItemWrite isE2 man metas = some item) : item ∈ man := by
  unfold findCoverItemWrite at hw
  cases h1 : (if isE2 then (none : Option ManifestItem)
      else man.find? hasCoverImageProp) with
  | some i =>
    rw [h1] at hw
    dsimp only at hw
    cases hw
    cases isE2 with
    | true => exact absurd h1 (by simp)
    | false =>
      simp only [Bool.false_eq_true, if_false] at h1
      exact List.mem_of_find?_eq_some h1
  | none =>
    rw [h1] at hw
    dsimp only at hw
    cases h2 : (match findCoverMetaContent metas with
        | some cid => man.find? (fun (i : ManifestItem) => i.id == some cid)
        | none => none) with
    | some i =>
      rw [h2] at hw
      dsimp only at hw
      cases hw
      cases hcm : findCoverMetaContent metas with
      | none => rw [hcm] at h2; exact absurd h2 (by simp)
      | some cid =>
        rw [hcm] at h2
        dsimp only at h2
        exact List.mem_of_find?_eq_some h2
    | none =>
      rw [h2] at hw
      dsimp only at hw
      exact List.mem_of_find?_eq_some hw

/-- The manifest entries of the cover stage's output on an EPUB 2
document: any entry carrying the `cover-image` property matches an
original entry with the same id and properties (the stage only flips a
media type or appends a property-free entry). -/
theorem stageCover_manifest_guarded_epub2 (cover : Option (List Nat))
    (d : OPFDoc) (i : ManifestItem)
    (hi : i ∈ ((stageCover true cover d).manifest.getD []))
    (hp : hasCoverImageProp i = true) :
    ∃ j ∈ (d.manifest.getD []), j.id = i.id ∧ j.properties = i.properties := by
  unfold stageCover at hi
  cases cover with
  | none => exact ⟨i, hi, rfl, rfl⟩
  | some buf =>
    dsimp only at hi
    cases hw : findCoverItemWrite true (d.manifest.getD []) d.metaElems with
    | none =>
      rw [hw] at hi
      dsimp only at hi
      rcases List.mem_append.mp hi with h | h
      · exact ⟨i, h, rfl, rfl⟩
      · have : i = newCoverItem true := by simpa using h
        rw [this] at hp
        exact absurd hp (by decide)
    | some item =>
      rw [hw] at hi
      have hitem : item ∈ (d.manifest.getD []) :=
        findCoverItemWrite_mem true _ _ item hw
      obtain ⟨iid, ihref, imt, iprops⟩ := item
      cases ihref with
      | none => exact ⟨i, hi, rfl, rfl⟩
      | some hr =>
        dsimp only at hi
        split at hi
        · rcases mem_replaceFirstItem i _ _ _ hi with h | ⟨h1, _⟩
          · exact ⟨i, h, rfl, rfl⟩
          · refine ⟨⟨iid, some hr, imt, iprops⟩, hitem, ?_, ?_⟩ <;>
              rw [h1]
        · exact ⟨i, hi, rfl, rfl⟩

/-- The title cleanup leaves no `title-type` refinement behind. -/
theorem stageTitleFilter_noTT (d : OPFDoc) (e : MetaElem)
    (he : e ∈ (stageTitleFilter d).metaElems) :
    (e.property == some "title-type") = false := by
  unfold stageTitleFilter at he
  have := (List.mem_filter.mp he).2
  simpa using this

/-- The authors stage never pushes a `title-type` refinement. -/
theorem stageAuthors_noTT (isE2 : Bool) (upd : Updates) (d : OPFDoc)
    (h : ∀ e ∈ d.metaElems, (e.property == some "title-type") = false)
    (e : MetaElem) (he : e ∈ (stageAuthors isE2 upd d).metaElems) :
    (e.property == some "title-type") = false := by
  unfold stageAuthors at he
  cases hA : upd.authors with
  | none =>
    rw [hA] at he
    dsimp only at he
    rw [stageSingleAuthor_metaElems] at he
    exact h e he
  | some l =>
    rw [hA] at he
    dsimp only at he
    split at he
    · rw [stageSingleAuthor_metaElems] at he
      exact h e he
    · cases isE2 with
      | true =>
        simp only [if_true] at he
        exact h e he
      | false =>
        simp only [Bool.false_eq_true, if_false] at he
        rcases List.mem_append.mp he with hm | hm
        · exact h e (List.mem_filter.mp hm).1
        · rcases mem_buildAuthorRefines_property e 0 l hm with hp | hp <;>
            simp [hp]

/-- The identifier stage pushes only `identifier-type` refinements. -/
theorem stageIdentifier_noTT (isE2 : Bool) (upd : Updates) (d : OPFDoc)
    (h : ∀ e ∈ d.metaElems, (e.property == some "title-type") = false)
    (e : MetaElem) (he : e ∈ (stageIdentifier isE2 upd d).metaElems) :
    (e.property == some "title-type") = false := by
  unfold stageIdentifier at he
  by_cases ht : jsTruthy upd.identifier
  · simp only [ht, if_true] at he
    split at he
    · split at he <;>
      · first
        | (rcases List.mem_append.mp he with hm | hm
           · exact h e (List.mem_filter.mp hm).1
           · have : e = onixRefineElem
                 (isIsbn13L (stripDashSpace
                   (sanitizeMetadataString upd.identifier)).data) := by
               simpa using hm
             rw [this]; rfl)
        | exact h e he
    · split at he <;>
      · first
        | (rcases List.mem_append.mp he with hm | hm
           · exact h e (List.mem_filter.mp hm).1
           · have : e = onixRefineElem
                 (isIsbn13L (stripDashSpace
                   (sanitizeMetadataString upd.identifier)).data) := by
               simpa using hm
             rw [this]; rfl)
        | exact h e he
  · simp only [ht] at he
    simp only [Bool.false_eq_true, if_false] at he
    exact h e he

/-- The series stage pushes only collection, timestamp and calibre
elements. -/
theorem stageSeries_noTT (isE2 : Bool) (now : String) (upd : Updates)
    (d : OPFDoc)
    (h : ∀ e ∈ d.metaElems, (e.property == some "title-type") = false)
    (e : MetaElem) (he : e ∈ (stageSeries isE2 now upd d).metaElems) :
    (e.property == some "title-type") = false := by
  unfold stageSeries at he
  cases isE2 with
  | true =>
    simp only [if_true] at he
    split at he
    · dsimp only at he
      rcases List.mem_append.mp he with hm | hm
      · exact h e (List.mem_filter.mp hm).1
      · simp [mem_calibreElems_property upd e hm]
    · exact h e he
  | false =>
    simp only [Bool.false_eq_true, if_false] at he
    rcases List.mem_append.mp he with hm | hm
    · have hm1 := (List.mem_filter.mp hm).1
      rcases List.mem_append.mp hm1 with hm2 | hm2
      · exact h e (List.mem_filter.mp hm2).1
      · rcases mem_seriesElems_property upd e hm2 with hp | hp | hp <;>
          simp [hp]
    · have : e = dctermsElem now := by simpa using hm
      rw [this]; rfl

/-- The cover stage pushes only the property-free cover pointer. -/
theorem stageCover_noTT (isE2 : Bool) (cover : Option (List Nat)) (d : OPFDoc)
    (h : ∀ e ∈ d.metaElems, (e.property == some "title-type") = false)
    (e : MetaElem) (he : e ∈ (stageCover isE2 cover d).metaElems) :
    (e.property == some "title-type") = false := by
  rcases stageCover_metaElems_sub isE2 cover d e he with hm | hm
  · exact h e hm
  · rw [hm]; rfl

/-- After any write, the metadata block holds no `title-type`
refinement: the unconditional cleanup establishes this and no later
stage reintroduces one. -/
theorem writeEpub_noTT (upd : Updates) (cover : Option (List Nat))
    (now : String) (d : OPFDoc) (e : MetaElem)
    (he : e ∈ (writeEpub upd cover now d).metaElems) :
    (e.property == some "title-type") = false := by
  unfold writeEpub at he
  refine stageCover_noTT _ cover _ (fun e he => ?_) e he
  refine stageSeries_noTT _ now upd _ (fun e he => ?_) e he
  rw [stageSubjects_metaElems] at he
  refine stageIdentifier_noTT _ upd _ (fun e he => ?_) e he
  refine stageAuthors_noTT _ upd _ (fun e he => ?_) e he
  rw [stageLanguage_metaElems, stageScalars_metaElems,
    stageTitle_metaElems] at he
  exact stageTitleFilter_noTT d e he

/-- Version-2 guard, metadata side: any element of the written block
carrying one of the five guarded properties was in the original
block. -/
theorem writeEpub_guarded_epub2 (upd : Updates) (cover : Option (List Nat))
    (now : String) (d : OPFDoc) (hE : isEpub2 d = true) (e : MetaElem)
    (he : e ∈ (writeEpub upd cover now d).metaElems) (hg : gprop e = true) :
    e ∈ d.metaElems := by
  unfold writeEpub at he
  rw [hE] at he
  rcases stageCover_metaElems_sub _ _ _ _ he with h1 | h1
  · have h2 := stageSeries_guarded_epub2 now upd _ e h1 hg
    rw [stageSubjects_metaElems, stageIdentifier_metaElems_epub2,
      stageAuthors_metaElems_epub2, stageLanguage_metaElems,
      stageScalars_metaElems, stageTitle_metaElems] at h2
    exact stageTitleFilter_metaElems_sub d e h2
  · rw [h1] at hg
    exact absurd hg (by decide)

/-- Version-2 guard, manifest side: any written entry carrying the
`cover-image` property matches an original entry with the same id and
properties. -/
theorem writeEpub_manifest_guarded_epub2 (upd : Updates)
    (cover : Option (List Nat)) (now : String) (d : OPFDoc)
    (hE : isEpub2 d = true) (i : ManifestItem)
    (hi : i ∈ ((writeEpub upd cover now d).manifest.getD []))
    (hp : hasCoverImageProp i = true) :
    ∃ j ∈ (d.manifest.getD []), j.id = i.id ∧ j.properties = i.properties := by
  unfold writeEpub at hi
  rw [hE] at hi
  obtain ⟨j, hj, hji, hjp⟩ :=
    stageCover_manifest_guarded_epub2 cover _ i hi hp
  rw [stageSeries_manifest, stageSubjects_manifest, stageIdentifier_manifest,
    stageAuthors_manifest, stageLanguage_manifest, stageScalars_manifest,
    stageTitle_manifest, stageTitleFilter_manifest] at hj
  exact ⟨j, hj, hji, hjp⟩

/-- When no entry classifies as ISBN, the in-place rewrite pass is the
identity. -/
theorem map_rewrite_of_all_not (sid : String) (valid : Bool)
    (ids : List IdentElem) (h : ∀ e ∈ ids, writeClassifiesISBN e = false) :
    ids.map (fun e =>
      if writeClassifiesISBN e && valid then rewriteIdent sid e else e) =
      ids := by
  induction ids with
  | nil => rfl
  | cons a t ih =>
    have ha := h a (List.mem_cons_self a t)
    simp only [List.map_cons, ha, Bool.false_and, Bool.false_eq_true,
      if_false, List.cons.injEq, true_and]
    exact ih (fun e he => h e (List.mem_cons_of_mem a he))

/-- The identifier stage's metadata effect in the fresh-ISBN case on a
version 3 document: clear stale `identifier-type` refinements of
`pub-id` and push the ONIX refinement. -/
theorem stageIdentifier_metaElems_append (upd : Updates) (d : OPFDoc)
    (ht : jsTruthy upd.identifier = true)
    (hv : (isIsbn10L (stripDashSpace
        (sanitizeMetadataString upd.identifier)).data ||
      isIsbn13L (stripDashSpace
        (sanitizeMetadataString upd.identifier)).data) = true)
    (hn : (d.identifiers.any writeClassifiesISBN) = false) :
    (stageIdentifier false upd d).metaElems =
      (d.metaElems.filter (fun m =>
        !(m.refines == some "#pub-id" &&
          m.property == some "identifier-type"))) ++
      [onixRefineElem (isIsbn13L (stripDashSpace
        (sanitizeMetadataString upd.identifier)).data)] := by
  unfold stageIdentifier
  simp only [ht, if_true]
  simp [hv, hn]
  split <;> rfl

/-! ### Idempotence support for the metadata normalizer -/

theorem dropWhile_dropWhile (p : Char → Bool) (l : List Char) :
    (l.dropWhile p).dropWhile p = l.dropWhile p := by
  induction l with
  | nil => rfl
  | cons a t ih =>
    by_cases h : p a
    · simp only [List.dropWhile_cons, h, if_true]
      exact ih
    · simp only [List.dropWhile_cons, h, if_false]
      simp [h]

theorem trimLeftL_idem (l : List Char) :
    trimLeftL (trimLeftL l) = trimLeftL l := dropWhile_dropWhile isJsSpace l

theorem trimRightL_idem (l : List Char) :
    trimRightL (trimRightL l) = trimRightL l := by
  unfold trimRightL
  rw [List.reverse_reverse, dropWhile_dropWhile]

theorem dropWhile_eq_self_of_head (p : Char → Bool) (a : Char) (t : List Char)
    (h : p a = false) : (a :: t).dropWhile p = a :: t := by
  simp [List.dropWhile_cons, h]

theorem dropWhile_of_isPrefix (p : Char → Bool) (w x : List Char)
    (hpre : w <+: x) (hx : x.dropWhile p = x) : w.dropWhile p = w := by
  cases w with
  | nil => rfl
  | cons a w' =>
    obtain ⟨t, ht⟩ := hpre
    have hax : x = a :: (w' ++ t) := by rw [← ht]; rfl
    have hpa : p a = false := by
      by_contra hpa
      rw [Bool.not_eq_false] at hpa
      rw [hax] at hx
      simp only [List.dropWhile_cons, hpa, if_true] at hx
      have := (List.dropWhile_sublist (l := w' ++ t) p).length_le
      rw [hx] at this
      simp at this
    exact dropWhile_eq_self_of_head p a w' hpa

theorem trimRightL_isPrefix (x : List Char) : trimRightL x <+: x := by
  unfold trimRightL
  have h1 : x.reverse.dropWhile isJsSpace <:+ x.reverse :=
    List.dropWhile_suffix isJsSpace
  have h2 := List.reverse_prefix.mpr h1
  rwa [List.reverse_reverse] at h2

theorem jsTrimL_idem (l : List Char) : jsTrimL (jsTrimL l) = jsTrimL l := by
  unfold jsTrimL
  have hx : trimLeftL (trimLeftL l) = trimLeftL l := trimLeftL_idem l
  have hfix : (trimLeftL l).dropWhile isJsSpace = trimLeftL l := hx
  have hfix2 : trimLeftL (trimRightL (trimLeftL l)) =
      trimRightL (trimLeftL l) :=
    dropWhile_of_isPrefix isJsSpace _ _ (trimRightL_isPrefix (trimLeftL l))
      hfix
  rw [hfix2, trimRightL_idem]

theorem jsTrim_idem (s : String) : jsTrim (jsTrim s) = jsTrim s := by
  unfold jsTrim
  rw [show (String.mk (jsTrimL s.data)).data = jsTrimL s.data from rfl,
    jsTrimL_idem]

theorem mem_jsSetDedupAux (x : String) :
    ∀ (l seen : List String), x ∈ jsSetDedupAux seen l → x ∈ l := by
  intro l
  induction l with
  | nil => intro seen h; simp [jsSetDedupAux] at h
  | cons a t ih =>
    intro seen h
    unfold jsSetDedupAux at h
    split at h
    · exact List.mem_cons_of_mem a (ih seen h)
    · rcases List.mem_cons.mp h with h | h
      · exact h ▸ List.mem_cons_self a t
      · exact List.mem_cons_of_mem a (ih (a :: seen) h)

theorem jsSetDedupAux_nodup_avoid :
    ∀ (l seen : List String), (jsSetDedupAux seen l).Nodup ∧
      ∀ x ∈ jsSetDedupAux seen l, x ∉ seen := by
  intro l
  induction l with
  | nil => intro seen; simp [jsSetDedupAux]
  | cons a t ih =>
    intro seen
    unfold jsSetDedupAux
    split
    · exact ih seen
    · rename_i hnotin
      obtain ⟨hnd, havoid⟩ := ih (a :: seen)
      refine ⟨List.nodup_cons.mpr ⟨?_, hnd⟩, ?_⟩
      · intro hmem
        exact (havoid a hmem) (List.mem_cons_self a seen)
      · intro x hx
        rcases List.mem_cons.mp hx with h | h
        · rw [h]; exact hnotin
        · intro hxs
          exact (havoid x h) (List.mem_cons_of_mem a hxs)

theorem jsSetDedupAux_eq_self :
    ∀ (l seen : List String), l.Nodup → (∀ x ∈ l, x ∉ seen) →
      jsSetDedupAux seen l = l := by
  intro l
  induction l with
  | nil => intro seen _ _; rfl
  | cons a t ih =>
    intro seen hnd havoid
    unfold jsSetDedupAux
    rw [if_neg (havoid a (List.mem_cons_self a t))]
    congr 1
    exact ih (a :: seen) (List.nodup_cons.mp hnd).2
      (fun x hx => by
        intro hmem
        rcases List.mem_cons.mp hmem with h | h
        · exact (List.nodup_cons.mp hnd).1 (h ▸ hx)
        · exact (havoid x (List.mem_cons_of_mem a hx)) h)

theorem mem_cleanStrList (x : String) (l : List String)
    (h : x ∈ cleanStrList l) : jsTrim x = x ∧ (x == "") = false := by
  unfold cleanStrList at h
  have h1 := mem_jsSetDedupAux x _ [] h
  have h2 := List.mem_filter.mp h1
  obtain ⟨y, _, hy⟩ := List.mem_map.mp h2.1
  constructor
  · rw [← hy, jsTrim_idem]
  · simpa using h2.2

theorem cleanStrList_idem (l : List String) :
    cleanStrList (cleanStrList l) = cleanStrList l := by
  have hmap : (cleanStrList l).map jsTrim = cleanStrList l := by
    have := List.map_congr_left (l := cleanStrList l)
      (f := jsTrim) (g := id)
      (fun x hx => (mem_cleanStrList x l hx).1)
    rw [this, List.map_id]
  have hfilter : (cleanStrList l).filter (fun v => !(v == "")) =
      cleanStrList l := by
    apply List.filter_eq_self.mpr
    intro x hx
    simp [(mem_cleanStrList x l hx).2]
  show jsSetDedupAux []
    (((cleanStrList l).map jsTrim).filter (fun v => !(v == ""))) =
    cleanStrList l
  rw [hmap, hfilter]
  exact jsSetDedupAux_eq_self _ []
    (jsSetDedupAux_nodup_avoid _ []).1 (by simp)

/-- The date field of one normalizer pass, isolated. -/
def dateField (dparse : String → Option JsDate) (o : Option String) :
    Option String :=
  let t := o.map jsTrim
  if jsTruthy t then some (normalizeDateFormat dparse (t.getD "")) else t

/-- The description field of one normalizer pass, isolated. -/
def descField (o : Option String) : Option String :=
  let t := o.map jsTrim
  if jsTruthy t then some (stripHTML (t.getD "")) else t

/-- The language field of one normalizer pass, isolated. -/
def langField (o : Option String) : Option String :=
  let t := o.map jsTrim
  if jsTruthy t then some ((normalizeLanguageCode (t.getD "")).code) else t

/-- The `_warnings` field of one normalizer pass, isolated: only the
language step produces warnings. -/
def warnField (o : Option String) : Option (List String) :=
  let t := o.map jsTrim
  let w := if jsTruthy t then langWarnList (normalizeLanguageCode (t.getD ""))
    else []
  if w == [] then none else some w

/-- Field-level characterization of `normalizeMetadata`: every string
field is trimmed, the arrays are cleaned, and the date / description /
language / warnings fields follow their isolated one-pass
transformations. -/
theorem normalizeMetadata_eq (dparse : String → Option JsDate)
    (m : MetaRecord) :
    normalizeMetadata dparse m =
      ⟨m.title.map jsTrim, m.subtitle.map jsTrim, m.author.map jsTrim,
       m.publisher.map jsTrim, dateField dparse m.date,
       descField m.description, m.rights.map jsTrim, langField m.language,
       m.series.map jsTrim, m.seriesIndex.map jsTrim,
       m.identifier.map jsTrim, m.subjects.map cleanStrList,
       warnField m.language⟩ := by
  unfold normalizeMetadata dateField descField langField warnField
  dsimp only
  split <;> split <;> split <;> rfl

theorem trimOpt_idem (o : Option String) :
    (o.map jsTrim).map jsTrim = o.map jsTrim := by
  cases o with
  | none => rfl
  | some s => simp [jsTrim_idem]

theorem cleanOpt_idem (o : Option (List String)) :
    (o.map cleanStrList).map cleanStrList = o.map cleanStrList := by
  cases o with
  | none => rfl
  | some l => simp [cleanStrList_idem]

theorem isCanonDateL_ne_nil (l : List Char) (h : isCanonDateL l = true) :
    l ≠ [] := by
  intro hnil
  rw [hnil] at h
  exact absurd h (by decide)

theorem jsTrim_stripHTML (s : String) : jsTrim (stripHTML s) = stripHTML s := by
  unfold stripHTML
  split
  · rfl
  · show jsTrim (String.mk (jsTrimL _)) = _
    unfold jsTrim
    rw [show (String.mk (jsTrimL (collapseWsL _))).data =
      jsTrimL (collapseWsL _) from rfl, jsTrimL_idem]

theorem string_eq_empty_iff_data (s : String) : s = "" ↔ s.data = [] := by
  constructor
  · intro h; rw [h]
  · intro h
    cases s with
    | mk d => cases h; rfl

theorem jsTrim_empty : jsTrim "" = "" := rfl

theorem jsTruthy_some (s : String) : jsTruthy (some s) = !(s == "") := rfl

theorem normalizeDateFormat_of_canon (dparse : String → Option JsDate)
    (s : String) (hcanon : isCanonDateL s.data = true) :
    normalizeDateFormat dparse s = s := by
  have hne : ¬(s = "") := fun hq =>
    isCanonDateL_ne_nil _ hcanon ((string_eq_empty_iff_data s).mp hq)
  unfold normalizeDateFormat
  simp [hne, hcanon]

theorem dateField_idem (dparse : String → Option JsDate) (o : Option String)
    (hd : o = none ∨ ∃ s, o = some s ∧ isCanonDateL (jsTrim s).data = true) :
    dateField dparse (dateField dparse o) = dateField dparse o := by
  rcases hd with h | ⟨s, hs, hcanon⟩
  · rw [h]; rfl
  · rw [hs]
    have hne : ¬(jsTrim s = "") := fun hq =>
      isCanonDateL_ne_nil _ hcanon ((string_eq_empty_iff_data (jsTrim s)).mp hq)
    have hcanon2 : isCanonDateL (jsTrim (jsTrim s)).data = true := by
      rw [jsTrim_idem]; exact hcanon
    simp [dateField, jsTruthy_some, jsTrim_idem, hne,
      normalizeDateFormat_of_canon dparse _ hcanon]

theorem descField_idem (o : Option String)
    (hd : o = none ∨ ∃ s, o = some s ∧
      stripHTML (stripHTML (jsTrim s)) = stripHTML (jsTrim s)) :
    descField (descField o) = descField o := by
  rcases hd with h | ⟨s, hs, hstable⟩
  · rw [h]; rfl
  · rw [hs]
    by_cases he : jsTrim s = ""
    · simp [descField, jsTruthy_some, he, jsTrim_empty]
    · by_cases hD : stripHTML (jsTrim s) = ""
      · simp [descField, jsTruthy_some, he, hD, jsTrim_stripHTML,
          jsTrim_empty]
      · simp [descField, jsTruthy_some, he, hD, jsTrim_stripHTML, hstable]

theorem langField_idem (o : Option String)
    (hl : o = none ∨ ∃ s, o = some s ∧
      jsTrim ((normalizeLanguageCode (jsTrim s)).code) =
        (normalizeLanguageCode (jsTrim s)).code ∧
      normalizeLanguageCode ((normalizeLanguageCode (jsTrim s)).code) =
        normalizeLanguageCode (jsTrim s)) :
    langField (langField o) = langField o ∧
    warnField (langField o) = warnField o := by
  rcases hl with h | ⟨s, hs, htrim, hfix⟩
  · rw [h]; exact ⟨rfl, rfl⟩
  · rw [hs]
    by_cases he : jsTrim s = ""
    · constructor
      · simp [langField, jsTruthy_some, he, jsTrim_empty]
      · simp [langField, warnField, jsTruthy_some, he, jsTrim_empty]
    · by_cases hc : (normalizeLanguageCode (jsTrim s)).code = ""
      · have hr : normalizeLanguageCode (jsTrim s) =
            ⟨"", none, false, none⟩ := by
          rw [← hfix, hc]
          rfl
        constructor
        · simp [langField, jsTruthy_some, he, hc, jsTrim_empty]
        · simp [langField, warnField, jsTruthy_some, he, hc, jsTrim_empty,
            hr, langWarnList]
      · constructor
        · simp [langField, jsTruthy_some, he, hc, htrim, hfix]
        · simp [langField, warnField, jsTruthy_some, he, hc, htrim, hfix]

/-! ### Claim theorems -/

/-- Claim C6: the language normalizer satisfies the four-case mapping
table — `"eng"` converts to `"en"` with the conversion flag and echoed
original and no warning; `"en-us"` becomes `"en-US"` with no warning
and no conversion flag; `"xx"` is returned as `"xx"` together with a
warning; the empty string yields code `""` with no warning. -/
theorem claim_C6_language_mapping :
    normalizeLanguageCode "eng" = ⟨"en", none, true, some "eng"⟩ ∧
    normalizeLanguageCode "en-us" = ⟨"en-US", none, false, none⟩ ∧
    (normalizeLanguageCode "xx").code = "xx" ∧
    (normalizeLanguageCode "xx").warning.isSome = true ∧
    normalizeLanguageCode "" = ⟨"", none, false, none⟩ := by decide

/-- Claim C9, counterexample: the sanitizer keeps the carriage return
(`\x0D` is outside the removed ranges), so the output of `"a\rb"`
still contains a control character that is neither tab nor newline;
and stripping a trailing `\x00` after the trim exposes a trailing
space, so the output of `"a \x00"` is not trimmed. -/
theorem claim_C9_counterexample :
    ('\x0d' ∈ (sanitizeMetadataString (some "a\x0db")).data) ∧
    sanitizeMetadataString (some "a \x00") ≠
      jsTrim (sanitizeMetadataString (some "a \x00")) := by decide

/-- Claim C9 (amended): the write-path string sanitizer is total and
never raises: for every input (non-string modelled as `none`) the
result is at most 10,000 characters long and contains no control
character other than tab, newline and carriage return (it removes
exactly `\x00`-`\x08`, `\x0B`, `\x0C`, `\x0E`-`\x1F` and `\x7F`);
non-string and empty inputs yield the empty string.  (The input is
trimmed before truncation and control stripping, so the result itself
can retain boundary whitespace those steps expose.) -/
theorem claim_C9_sanitizer_safety (v : Option String) :
    (sanitizeMetadataString v).length ≤ 10000 ∧
    ((sanitizeMetadataString v).data.all (fun c =>
      (decide (0x20 ≤ c.toNat) || c.toNat == 0x09 || c.toNat == 0x0A ||
        c.toNat == 0x0D) && !(c.toNat == 0x7F))) = true ∧
    sanitizeMetadataString none = "" ∧
    sanitizeMetadataString (some "") = "" := by
  have hchar : ∀ c : Char, isRemovedCtrl c = false →
      ((decide (0x20 ≤ c.toNat) || c.toNat == 0x09 || c.toNat == 0x0A ||
        c.toNat == 0x0D) && !(c.toNat == 0x7F)) = true := by
    intro c h
    simp only [isRemovedCtrl, Bool.or_eq_false_iff, decide_eq_false_iff_not,
      not_le, beq_eq_false_iff_ne, ne_eq, Bool.and_eq_false_iff,
      not_and, not_lt] at h
    simp only [Bool.and_eq_true, Bool.or_eq_true, decide_eq_true_eq,
      beq_iff_eq, Bool.not_eq_true', beq_eq_false_iff_ne, ne_eq]
    omega
  have hform : ∀ (s : String), ¬(s = "") →
      sanitizeMetadataString (some s) =
        String.mk (((jsTrimL s.data).take 10000).filter
          (fun c => !(isRemovedCtrl c))) := by
    intro s hs
    unfold sanitizeMetadataString
    simp [hs]
  refine ⟨?_, ?_, rfl, rfl⟩
  · cases v with
    | none => simp [sanitizeMetadataString]
    | some s =>
      by_cases hs : s = ""
      · simp [sanitizeMetadataString, hs]
      · rw [hform s hs]
        show (((jsTrimL s.data).take 10000).filter
          (fun c => !(isRemovedCtrl c))).length ≤ 10000
        calc (((jsTrimL s.data).take 10000).filter
              (fun c => !(isRemovedCtrl c))).length
            ≤ ((jsTrimL s.data).take 10000).length :=
              List.length_filter_le _ _
          _ ≤ 10000 := List.length_take_le _ _
  · rw [List.all_eq_true]
    intro c hc
    cases v with
    | none => simp [sanitizeMetadataString] at hc
    | some s =>
      by_cases hs : s = ""
      · simp [sanitizeMetadataString, hs] at hc
      · rw [hform s hs] at hc
        have hmem : c ∈ ((jsTrimL s.data).take 10000).filter
            (fun c => !(isRemovedCtrl c)) := hc
        have := (List.mem_filter.mp hmem).2
        exact hchar c (by simpa using this)

/-- Claim C10: every invocation of the writer — whatever the update
set contains, and on version-2 documents as well — leaves no
`title-type` refinement in the metadata block: the cleanup at the top
of `writeEpub` removes them unconditionally and no later stage pushes
one. -/
theorem claim_C10_title_type_always_removed (upd : Updates)
    (cover : Option (List Nat)) (now : String) (d : OPFDoc) :
    ((writeEpub upd cover now d).metaElems.all
      (fun m => !(m.property == some "title-type"))) = true := by
  rw [List.all_eq_true]
  intro e he
  simp [writeEpub_noTT upd cover now d e he]

/-- Stand-in for the host `Date` parser that `normalizeDateFormat`
consults (`new Date(dateStr)` is a JS builtin); the concrete inputs it
is used with below never reach the parse branch. -/
def noDateParse : String → Option JsDate := fun _ => none

/-- Claim C5, counterexample: the normalizer is not idempotent on a
description containing the doubly-encoded entity `"&amp;amp;"` — one
pass decodes it to `"&amp;"`, a second pass decodes that to `"&"`. -/
theorem claim_C5_counterexample :
    normalizeMetadata noDateParse (normalizeMetadata noDateParse
      ⟨none, none, none, none, none, some "&amp;amp;", none, none, none,
       none, none, none, none⟩) ≠
    normalizeMetadata noDateParse
      ⟨none, none, none, none, none, some "&amp;amp;", none, none, none,
       none, none, none, none⟩ := by decide

/-- Claim C5 (amended): `normalizeMetadata` is idempotent for
Metadata-shaped inputs whose description (if present) is stable under
a second HTML-strip of its trimmed value, whose date (if present)
trims to the canonical `YYYY`/`YYYY-MM-DD` shape, and whose language
(if present) normalizes to a fixed point of the language normalizer.
In general idempotence fails: doubly-encoded entities in the
description (see the counterexample) and convertible 3-letter language
codes (whose conversion warning is not regenerated on a second pass)
each break it. -/
theorem claim_C5_normalize_idempotent (dparse : String → Option JsDate)
    (m : MetaRecord)
    (hd : m.date = none ∨ ∃ s, m.date = some s ∧
      isCanonDateL (jsTrim s).data = true)
    (hdesc : m.description = none ∨ ∃ s, m.description = some s ∧
      stripHTML (stripHTML (jsTrim s)) = stripHTML (jsTrim s))
    (hl : m.language = none ∨ ∃ s, m.language = some s ∧
      jsTrim ((normalizeLanguageCode (jsTrim s)).code) =
        (normalizeLanguageCode (jsTrim s)).code ∧
      normalizeLanguageCode ((normalizeLanguageCode (jsTrim s)).code) =
        normalizeLanguageCode (jsTrim s)) :
    normalizeMetadata dparse (normalizeMetadata dparse m) =
      normalizeMetadata dparse m := by
  rw [normalizeMetadata_eq dparse m, normalizeMetadata_eq dparse]
  dsimp only
  rw [trimOpt_idem, trimOpt_idem, trimOpt_idem, trimOpt_idem, trimOpt_idem,
    trimOpt_idem, trimOpt_idem, trimOpt_idem, cleanOpt_idem,
    dateField_idem dparse m.date hd, descField_idem m.description hdesc,
    (langField_idem m.language hl).1, (langField_idem m.language hl).2]

/-- A concrete Metadata-shaped input satisfying the amended C5
hypotheses: canonical date, entity-free description, fixed-point
language, untrimmed and duplicated subjects. -/
def mC5W : MetaRecord :=
  ⟨some "  A Title ", none, none, some "Pub", some "2020-01-02",
   some "Hello <b>world</b> &amp; more", none, some "xx", none, none,
   none, some ["  a ", "a", ""], none⟩

theorem claim_C5_witness :
    (mC5W.date = none ∨ ∃ s, mC5W.date = some s ∧
      isCanonDateL (jsTrim s).data = true) ∧
    normalizeMetadata noDateParse (normalizeMetadata noDateParse mC5W) =
      normalizeMetadata noDateParse mC5W :=
  ⟨Or.inr ⟨"2020-01-02", rfl, by decide⟩,
   claim_C5_normalize_idempotent noDateParse mC5W
     (Or.inr ⟨"2020-01-02", rfl, by decide⟩)
     (Or.inr ⟨"Hello <b>world</b> &amp; more", rfl, by decide⟩)
     (Or.inr ⟨"xx", rfl, by decide, by decide⟩)⟩

/-- Claim C1: for every Document whose identifier list has exactly one
entry classifying as ISBN (by the write path's scheme-or-pattern test)
among any other non-ISBN entries, a write with a valid update ISBN
rewrites only that entry in place — new sanitized value, id kept when
present (defaulting to `pub-id`), a scheme attribute present exactly
when the entry had a truthy one (its value forced to `"ISBN"`) — and
every other entry is copied through unchanged in its original
position. -/
theorem claim_C1_identifier_preservation (upd : Updates)
    (cover : Option (List Nat)) (now : String) (d : OPFDoc)
    (pre post : List IdentElem) (e : IdentElem)
    (hsplit : d.identifiers = pre ++ e :: post)
    (hone : writeClassifiesISBN e = true)
    (hrest : ∀ x ∈ pre ++ post, writeClassifiesISBN x = false)
    (ht : jsTruthy upd.identifier = true)
    (hv : (isIsbn10L (stripDashSpace
        (sanitizeMetadataString upd.identifier)).data ||
      isIsbn13L (stripDashSpace
        (sanitizeMetadataString upd.identifier)).data) = true) :
    (writeEpub upd cover now d).identifiers =
      pre ++ rewriteIdent (sanitizeMetadataString upd.identifier) e :: post := by
  rw [writeEpub_identifiers, hsplit]
  unfold identUpdate
  simp only [ht, if_true]
  have hany : ((pre ++ e :: post).any writeClassifiesISBN) = true := by
    rw [List.any_eq_true]
    exact ⟨e, by simp, hone⟩
  simp only [hv, hany, Bool.not_true, Bool.and_false, Bool.false_eq_true,
    if_false]
  rw [List.map_append, List.map_cons]
  rw [map_rewrite_of_all_not _ _ pre
    (fun x hx => hrest x (List.mem_append_left post hx))]
  rw [map_rewrite_of_all_not _ _ post
    (fun x hx => hrest x (List.mem_append_right pre hx))]
  simp [hone, hv]

/-- Concrete C1 instance: the spec's own example Document. -/
def docC1 : OPFDoc :=
  { pkgAttrs := some ⟨some "3.0", some "bookid"⟩,
    titles := [⟨"Foo", none⟩], creators := [], language := [],
    publisher := [], date := [], description := [], rights := [],
    identifiers := [⟨"0306406152", some "bookid", some "ISBN"⟩,
                    ⟨"B000ABC123", some "asin", some "ASIN"⟩],
    subjects := [], metaElems := [], manifest := none }

/-- Concrete C1 update set: only the new ISBN. -/
def updC1 : Updates :=
  ⟨none, none, none, none, none, none, none, none, none,
   some "9780306406157", none, none, none⟩

theorem claim_C1_witness :
    writeClassifiesISBN ⟨"0306406152", some "bookid", some "ISBN"⟩ = true ∧
    (writeEpub updC1 none "2024-01-01T00:00:00Z" docC1).identifiers =
      [⟨"9780306406157", some "bookid", some "ISBN"⟩,
       ⟨"B000ABC123", some "asin", some "ASIN"⟩] :=
  ⟨by decide,
   (claim_C1_identifier_preservation updC1 none "2024-01-01T00:00:00Z" docC1
     [] [⟨"B000ABC123", some "asin", some "ASIN"⟩]
     ⟨"0306406152", some "bookid", some "ISBN"⟩
     (by decide) (by decide) (by decide) (by decide) (by decide)).trans
   (by decide)⟩

/-- Concrete C2 instance: two identifier entries that both classify as
ISBN by value pattern. -/
def docC2 : OPFDoc :=
  { pkgAttrs := some ⟨some "3.0", some "id1"⟩,
    titles := [⟨"T", none⟩], creators := [], language := [],
    publisher := [], date := [], description := [], rights := [],
    identifiers := [⟨"0306406152", some "id1", none⟩,
                    ⟨"9780306406157", some "id2", none⟩],
    subjects := [], metaElems := [], manifest := none }

/-- Concrete C2 update set: a third, distinct valid ISBN. -/
def updC2 : Updates :=
  ⟨none, none, none, none, none, none, none, none, none,
   some "9780140449136", none, none, none⟩

/-- Claim C2, counterexample: with two existing entries both
classifying as ISBN, a write rewrites BOTH values — not at most one.
The in-place rewrite is a `map` with no first-match cut-off. -/
theorem claim_C2_counterexample :
    writeClassifiesISBN ⟨"0306406152", some "id1", none⟩ = true ∧
    writeClassifiesISBN ⟨"9780306406157", some "id2", none⟩ = true ∧
    (writeEpub updC2 none "2024-01-01T00:00:00Z" docC2).identifiers =
      [⟨"9780140449136", some "id1", none⟩,
       ⟨"9780140449136", some "id2", none⟩] := by decide

/-- Claim C2 (amended): when an update ISBN is supplied and valid,
EVERY existing identifier entry that classifies as ISBN (by scheme or
value pattern) has its value rewritten in place, entries that do not
classify are copied through unchanged, and a fresh `pub-id` entry is
appended exactly when no entry classified. -/
theorem claim_C2_all_isbn_rewritten (upd : Updates)
    (cover : Option (List Nat)) (now : String) (d : OPFDoc)
    (ht : jsTruthy upd.identifier = true)
    (hv : (isIsbn10L (stripDashSpace
        (sanitizeMetadataString upd.identifier)).data ||
      isIsbn13L (stripDashSpace
        (sanitizeMetadataString upd.identifier)).data) = true) :
    (writeEpub upd cover now d).identifiers =
      (d.identifiers.map (fun e =>
        if writeClassifiesISBN e then
          rewriteIdent (sanitizeMetadataString upd.identifier) e
        else e)) ++
      (if d.identifiers.any writeClassifiesISBN then []
       else [newIsbnElem (sanitizeMetadataString upd.identifier)]) := by
  rw [writeEpub_identifiers]
  unfold identUpdate
  simp only [ht, if_true, hv]
  cases hany : d.identifiers.any writeClassifiesISBN with
  | true =>
    simp only [hany, Bool.not_true, Bool.and_false, Bool.false_eq_true,
      if_false, if_true, List.append_nil]
    apply List.map_congr_left
    intro e _
    simp [hv]
  | false =>
    simp only [hany, Bool.not_false, Bool.and_true, if_true,
      Bool.false_eq_true, if_false]

theorem claim_C2_witness :
    jsTruthy updC2.identifier = true ∧
    (writeEpub updC2 none "2024-01-01T00:00:00Z" docC2).identifiers =
      (docC2.identifiers.map (fun e =>
        if writeClassifiesISBN e then
          rewriteIdent (sanitizeMetadataString updC2.identifier) e
        else e)) ++
      (if docC2.identifiers.any writeClassifiesISBN then []
       else [newIsbnElem (sanitizeMetadataString updC2.identifier)]) :=
  ⟨by decide,
   claim_C2_all_isbn_rewritten updC2 none "2024-01-01T00:00:00Z" docC2
     (by decide) (by decide)⟩

/-- Concrete C8 instance: a document with one existing subject. -/
def docC8 : OPFDoc :=
  { pkgAttrs := some ⟨some "3.0", some "id1"⟩,
    titles := [⟨"T", none⟩], creators := [], language := [],
    publisher := [], date := [], description := [], rights := [],
    identifiers := [⟨"0306406152", some "id1", none⟩],
    subjects := ["Old"], metaElems := [], manifest := none }

/-- Concrete C8 update set: the explicit empty subjects list. -/
def updC8 : Updates :=
  ⟨none, none, none, none, none, none, none, none, none, none, none, none,
   some []⟩

/-- Concrete C8 update set with non-empty subjects, for the witness. -/
def updC8b : Updates :=
  ⟨none, none, none, none, none, none, none, none, none, none, none, none,
   some ["  X  ", "Y"]⟩

/-- Claim C8, counterexample: supplying subjects as the explicit empty
list does NOT clear the existing subjects — the guard
`updates.subjects?.length` is falsy for `[]`, so the write leaves
`["Old"]` in place where the claim demands `[]`. -/
theorem claim_C8_counterexample :
    updC8.subjects = some [] ∧
    docC8.subjects = ["Old"] ∧
    (writeEpub updC8 none "2024-01-01T00:00:00Z" docC8).subjects =
      ["Old"] := by decide

/-- Claim C8 (amended): a write whose update set contains a NON-EMPTY
subjects list replaces the document's subject list wholesale with the
sanitized update list (no merging with the originals); a write whose
subjects field is the explicit empty list leaves the existing subjects
unchanged (the `?.length` guard treats it like an absent field). -/
theorem claim_C8_subjects_replace (upd : Updates)
    (cover : Option (List Nat)) (now : String) (d : OPFDoc)
    (l : List String) (h : upd.subjects = some l) :
    (writeEpub upd cover now d).subjects =
      if l == [] then d.subjects
      else l.map (fun s => sanitizeMetadataString (some s)) := by
  rw [writeEpub_subjects]
  unfold subjUpdate
  rw [h]

theorem claim_C8_witness :
    updC8b.subjects = some ["  X  ", "Y"] ∧
    (writeEpub updC8b none "2024-01-01T00:00:00Z" docC8).subjects =
      ["X", "Y"] :=
  ⟨by decide,
   (claim_C8_subjects_replace updC8b none "2024-01-01T00:00:00Z" docC8
     ["  X  ", "Y"] (by decide)).trans (by decide)⟩

/-- Claim C3: writing any update set (any combination of title,
subtitle, authors, identifier, series, subjects, scalar fields, and a
cover buffer) to a Document whose version string starts with "2"
never introduces a `dcterms:modified` element, a `title-type`,
`identifier-type`, `file-as` or `role` refinement, or a manifest entry
carrying the `cover-image` property: every such metadata element of
the output was already in the input block, and every output manifest
entry carrying `cover-image` matches an input entry with the same id
and the same properties attribute. -/
theorem claim_C3_version2_guard (upd : Updates) (cover : Option (List Nat))
    (now : String) (d : OPFDoc) (hE : isEpub2 d = true) :
    (∀ e ∈ (writeEpub upd cover now d).metaElems,
      gprop e = true → e ∈ d.metaElems) ∧
    (∀ i ∈ ((writeEpub upd cover now d).manifest.getD []),
      hasCoverImageProp i = true →
      ∃ j ∈ (d.manifest.getD []),
        j.id = i.id ∧ j.properties = i.properties) :=
  ⟨fun e he hg => writeEpub_guarded_epub2 upd cover now d hE e he hg,
   fun i hi hp => writeEpub_manifest_guarded_epub2 upd cover now d hE i hi hp⟩

/-- Concrete C3 instance: an EPUB 2 document receiving a full update
set including a JPEG cover. -/
def docC3 : OPFDoc :=
  { pkgAttrs := some ⟨some "2.0", none⟩,
    titles := [⟨"T", none⟩], creators := [], language := [],
    publisher := [], date := [], description := [], rights := [],
    identifiers := [], subjects := [],
    metaElems := [⟨some "title-type", some "#t1", none, none, none, none,
      some "main"⟩],
    manifest := some [] }

/-- Concrete C3 update set: every field supplied. -/
def updC3 : Updates :=
  ⟨some "New", some "Sub", none,
   some [AuthorUpd.obj "A. Writer" (some "edt") (some "Writer, A.")],
   some "P", some "2020", some "D", some "R", some "eng",
   some "9780306406157", some "S", some "2", some ["x"]⟩

theorem claim_C3_witness :
    isEpub2 docC3 = true ∧
    ((∀ e ∈ (writeEpub updC3 (some [0xFF, 0xD8, 0x01]) "2024" docC3).metaElems,
        gprop e = true → e ∈ docC3.metaElems) ∧
     (∀ i ∈ ((writeEpub updC3 (some [0xFF, 0xD8, 0x01]) "2024"
          docC3).manifest.getD []),
        hasCoverImageProp i = true →
        ∃ j ∈ (docC3.manifest.getD []),
          j.id = i.id ∧ j.properties = i.properties)) :=
  ⟨by decide,
   claim_C3_version2_guard updC3 (some [0xFF, 0xD8, 0x01]) "2024" docC3
     (by decide)⟩

/-- Concrete C4 manifest: entry `a` (plain JPEG) and entry `b`
carrying the `cover-image` property with a PNG media type. -/
def manC4 : List ManifestItem :=
  [⟨some "a", some "a.jpg", some "image/jpeg", none⟩,
   ⟨some "b", some "b.png", some "image/png", some "cover-image"⟩]

/-- Concrete C4 metadata block: a `meta name="cover"` pointer naming
entry `a`. -/
def metasC4 : List MetaElem :=
  [⟨none, none, none, some "cover", some "a", none, none⟩]

/-- Concrete C4 document: version 3, with the disagreeing cover
declarations above. -/
def docC4 : OPFDoc :=
  { pkgAttrs := some ⟨some "3.0", some "id1"⟩,
    titles := [⟨"T", none⟩], creators := [], language := [],
    publisher := [], date := [], description := [], rights := [],
    identifiers := [⟨"0306406152", some "id1", none⟩], subjects := [],
    metaElems := metasC4, manifest := some manC4 }

/-- Concrete C4 update set: no metadata changes, cover only. -/
def updC4 : Updates :=
  ⟨none, none, none, none, none, none, none, none, none, none, none, none,
   none⟩

/-- Claim C4, counterexample: with a `meta name="cover"` pointer naming
entry `a` and entry `b` carrying `cover-image`, the READ path chooses
`a`, but the WRITE path on a version-3 document checks the
`cover-image` property FIRST and chooses `b`: writing a JPEG cover
flips `b`'s media type (not `a`'s), so rule 1 is not evaluated before
rule 2 on the write side. -/
theorem claim_C4_counterexample :
    findCoverIdRead manC4 metasC4 = some "a" ∧
    findCoverItemRead manC4 metasC4 =
      some ⟨some "a", some "a.jpg", some "image/jpeg", none⟩ ∧
    findCoverItemWrite false manC4 metasC4 =
      some ⟨some "b", some "b.png", some "image/png", some "cover-image"⟩ ∧
    (writeEpub updC4 (some [0xFF, 0xD8, 0x01]) "2024" docC4).manifest =
      some [⟨some "a", some "a.jpg", some "image/jpeg", none⟩,
            ⟨some "b", some "b.png", some "image/jpeg",
              some "cover-image"⟩] := by decide

/-- Claim C4 (amended): when a `meta name="cover"` pointer resolving to
a manifest entry and a `cover-image`-property entry both exist, the
read path (`getCoverImage`) picks the pointer's entry, and the write
path picks the pointer's entry only for version-2 documents — for
other versions the `cover-image` property entry wins and the pointer
is merely its fallback. -/
theorem claim_C4_cover_fallback (man : List ManifestItem)
    (metas : List MetaElem) (cid : String) (mElem : MetaElem)
    (itemA itemB : ManifestItem)
    (hfind : metas.find? (fun m => m.name == some "cover") = some mElem)
    (hcontent : mElem.content = some cid) (hcid : ¬(cid = ""))
    (hA : man.find? (fun (i : ManifestItem) => i.id == some cid) = some itemA)
    (hB : man.find? hasCoverImageProp = some itemB) :
    findCoverIdRead man metas = some cid ∧
    findCoverItemRead man metas = some itemA ∧
    findCoverItemWrite true man metas = some itemA ∧
    findCoverItemWrite false man metas = some itemB := by
  have hm : findCoverMetaContent metas = some cid := by
    unfold findCoverMetaContent
    rw [hfind]
    dsimp only
    rw [hcontent]
    simp [hcid]
  have h1 : findCoverIdRead man metas = some cid := by
    unfold findCoverIdRead
    rw [hm]
  refine ⟨h1, ?_, ?_, ?_⟩
  · unfold findCoverItemRead
    rw [h1]
    dsimp only
    exact hA
  · unfold findCoverItemWrite
    simp only [if_true]
    rw [hm]
    dsimp only
    rw [hA]
  · unfold findCoverItemWrite
    simp only [Bool.false_eq_true, if_false]
    rw [hB]

theorem claim_C4_witness :
    metasC4.find? (fun m => m.name == some "cover") =
      some ⟨none, none, none, some "cover", some "a", none, none⟩ ∧
    (findCoverIdRead manC4 metasC4 = some "a" ∧
     findCoverItemRead manC4 metasC4 =
       some ⟨some "a", some "a.jpg", some "image/jpeg", none⟩ ∧
     findCoverItemWrite true manC4 metasC4 =
       some ⟨some "a", some "a.jpg", some "image/jpeg", none⟩ ∧
     findCoverItemWrite false manC4 metasC4 =
       some ⟨some "b", some "b.png", some "image/png", some "cover-image"⟩) :=
  ⟨by decide,
   claim_C4_cover_fallback manC4 metasC4 "a"
     ⟨none, none, none, some "cover", some "a", none, none⟩
     ⟨some "a", some "a.jpg", some "image/jpeg", none⟩
     ⟨some "b", some "b.png", some "image/png", some "cover-image"⟩
     (by decide) (by decide) (by decide) (by decide) (by decide)⟩

theorem isSeriesFiltered_onix (b : Bool) :
    isSeriesFiltered (onixRefineElem b) = false := by
  cases b <;> decide

theorem onix_not_dcterms (b : Bool) :
    ((onixRefineElem b).property == some "dcterms:modified") = false := by
  cases b <;> decide

/-- In the fresh-ISBN case on a non-EPUB-2 document, the pushed ONIX
refinement survives every later stage into the final output. -/
theorem writeEpub_onix_mem (upd : Updates) (cover : Option (List Nat))
    (now : String) (d : OPFDoc) (hE : isEpub2 d = false)
    (ht : jsTruthy upd.identifier = true)
    (hv : (isIsbn10L (stripDashSpace
        (sanitizeMetadataString upd.identifier)).data ||
      isIsbn13L (stripDashSpace
        (sanitizeMetadataString upd.identifier)).data) = true)
    (hn : d.identifiers.any writeClassifiesISBN = false) :
    onixRefineElem (isIsbn13L (stripDashSpace
        (sanitizeMetadataString upd.identifier)).data) ∈
      (writeEpub upd cover now d).metaElems := by
  unfold writeEpub
  rw [hE]
  apply stageCover_metaElems_mem
  apply stageSeries_mem_preserved _ _ _ _ (isSeriesFiltered_onix _)
    (onix_not_dcterms _)
  rw [stageSubjects_metaElems]
  rw [stageIdentifier_metaElems_append upd _ ht hv (by
    rw [stageAuthors_identifiers, stageLanguage_identifiers,
      stageScalars_identifiers, stageTitle_identifiers,
      stageTitleFilter_identifiers]
    exact hn)]
  exact List.mem_append_right _ (List.mem_singleton.mpr rfl)

/-- Claim C7: when an update identifier is supplied and no existing
identifier entry classifies as ISBN (write-path scheme-or-pattern
test): if the sanitized value with hyphens/whitespace removed matches
the ISBN-10 or ISBN-13 pattern, a new entry with the synthesized id
`pub-id` is appended; the ONIX `identifier-type` refinement ("15" for
ISBN-13, else "02") is added only for non-version-2 documents (on
version-2 documents every surviving `identifier-type` element was
already present); and the package's `unique-identifier` is set to
`pub-id` only if it was absent (falsy) before, given the package has
an attribute map.  If the value matches neither pattern, the
identifier list is left entirely unchanged. -/
theorem claim_C7_fresh_isbn (upd : Updates) (cover : Option (List Nat))
    (now : String) (d : OPFDoc)
    (ht : jsTruthy upd.identifier = true)
    (hn : d.identifiers.any writeClassifiesISBN = false) :
    ((isIsbn10L (stripDashSpace
        (sanitizeMetadataString upd.identifier)).data ||
      isIsbn13L (stripDashSpace
        (sanitizeMetadataString upd.identifier)).data) = true →
      (writeEpub upd cover now d).identifiers =
        d.identifiers ++ [newIsbnElem (sanitizeMetadataString upd.identifier)] ∧
      (isEpub2 d = false →
        onixRefineElem (isIsbn13L (stripDashSpace
          (sanitizeMetadataString upd.identifier)).data) ∈
          (writeEpub upd cover now d).metaElems) ∧
      (isEpub2 d = true →
        ∀ e ∈ (writeEpub upd cover now d).metaElems,
          (e.property == some "identifier-type") = true →
          e ∈ d.metaElems) ∧
      (jsTruthy (d.pkgAttrs.bind (fun a => a.uniqueIdentifier)) = true →
        (writeEpub upd cover now d).pkgAttrs = d.pkgAttrs) ∧
      (jsTruthy (d.pkgAttrs.bind (fun a => a.uniqueIdentifier)) = false →
        d.pkgAttrs.isSome = true →
        (writeEpub upd cover now d).pkgAttrs =
          Option.map (fun a => { a with uniqueIdentifier := some "pub-id" })
            d.pkgAttrs)) ∧
    ((isIsbn10L (stripDashSpace
        (sanitizeMetadataString upd.identifier)).data ||
      isIsbn13L (stripDashSpace
        (sanitizeMetadataString upd.identifier)).data) = false →
      (writeEpub upd cover now d).identifiers = d.identifiers) := by
  have hforall : ∀ x ∈ d.identifiers, writeClassifiesISBN x = false := by
    intro x hx
    by_contra hc
    rw [Bool.not_eq_false] at hc
    have := List.any_eq_true.mpr ⟨x, hx, hc⟩
    rw [hn] at this
    exact Bool.false_ne_true this
  constructor
  · intro hv
    refine ⟨?_, ?_, ?_, ?_, ?_⟩
    · rw [writeEpub_identifiers]
      unfold identUpdate
      simp only [ht, if_true, hv, hn, Bool.not_false, Bool.and_true, if_true]
      have hmapid : (d.identifiers.map (fun e =>
          if writeClassifiesISBN e = true then
            rewriteIdent (sanitizeMetadataString upd.identifier) e
          else e)) = d.identifiers := by
        have h2 := List.map_congr_left (l := d.identifiers)
          (f := fun e => if writeClassifiesISBN e = true then
            rewriteIdent (sanitizeMetadataString upd.identifier) e else e)
          (g := id) (fun e he => by simp [hforall e he])
        rw [h2, List.map_id]
      rw [hmapid]
    · intro hE
      exact writeEpub_onix_mem upd cover now d hE ht hv hn
    · intro hE e he hid
      refine writeEpub_guarded_epub2 upd cover now d hE e he ?_
      simp [gprop, hid]
    · intro hu
      rw [writeEpub_pkgAttrs]
      unfold pkgUpdate
      simp [ht, hu]
    · intro hu hsome
      rw [writeEpub_pkgAttrs]
      unfold pkgUpdate
      simp [ht, hu, hv, hn, hsome]
  · intro hv
    rw [writeEpub_identifiers]
    unfold identUpdate
    simp only [ht, if_true, hv, Bool.and_false, Bool.false_eq_true, if_false,
      Bool.false_and]
    simp

/-- Concrete C7 instance: a version-3 document whose only identifier
is a UUID and whose package has no unique-identifier reference. -/
def docC7 : OPFDoc :=
  { pkgAttrs := some ⟨some "3.0", none⟩,
    titles := [⟨"T", none⟩], creators := [], language := [],
    publisher := [], date := [], description := [], rights := [],
    identifiers := [⟨"urn:uuid:1234-abc", some "u1", none⟩],
    subjects := [], metaElems := [], manifest := none }

/-- Concrete C7 update set: a hyphenated valid ISBN-13. -/
def updC7 : Updates :=
  ⟨none, none, none, none, none, none, none, none, none,
   some "978-0-306-40615-7", none, none, none⟩

theorem claim_C7_witness :
    jsTruthy updC7.identifier = true ∧
    docC7.identifiers.any writeClassifiesISBN = false ∧
    (((isIsbn10L (stripDashSpace
        (sanitizeMetadataString updC7.identifier)).data ||
      isIsbn13L (stripDashSpace
        (sanitizeMetadataString updC7.identifier)).data) = true →
      (writeEpub updC7 none "2024" docC7).identifiers =
        docC7.identifiers ++
          [newIsbnElem (sanitizeMetadataString updC7.identifier)] ∧
      (isEpub2 docC7 = false →
        onixRefineElem (isIsbn13L (stripDashSpace
          (sanitizeMetadataString updC7.identifier)).data) ∈
          (writeEpub updC7 none "2024" docC7).metaElems) ∧
      (isEpub2 docC7 = true →
        ∀ e ∈ (writeEpub updC7 none "2024" docC7).metaElems,
          (e.property == some "identifier-type") = true →
          e ∈ docC7.metaElems) ∧
      (jsTruthy (docC7.pkgAttrs.bind (fun a => a.uniqueIdentifier)) = true →
        (writeEpub updC7 none "2024" docC7).pkgAttrs = docC7.pkgAttrs) ∧
      (jsTruthy (docC7.pkgAttrs.bind (fun a => a.uniqueIdentifier)) = false →
        docC7.pkgAttrs.isSome = true →
        (writeEpub updC7 none "2024" docC7).pkgAttrs =
          Option.map (fun a => { a with uniqueIdentifier := some "pub-id" })
            docC7.pkgAttrs)) ∧
    ((isIsbn10L (stripDashSpace
        (sanitizeMetadataString updC7.identifier)).data ||
      isIsbn13L (stripDashSpace
        (sanitizeMetadataString updC7.identifier)).data) = false →
      (writeEpub updC7 none "2024" docC7).identifiers =
        docC7.identifiers)) :=
  ⟨by decide, by decide,
   claim_C7_fresh_isbn updC7 none "2024" docC7 (by decide) (by decide)⟩

end BookPrep
